import Mathlib

/-!
# Verification of the incremental-lakehouse pipeline repository

A shallow embedding of the repository's core logic:

* the SQL value model (nullable columns as `Option`, three-valued comparison
  semantics, `NULLIF`-guarded division, Spark `ROUND` half-up rounding);
* the ExtractEngine staged transform (`tv_*_raw` / `tv_*_cleaned` /
  `tv_*_deduped`) for `orders`, `customers` and `lineitem`
  (src/extract/extract_orders.py, extract_customers.py, extract_lineitem.py);
* the RefineEngine transforms for `order_details`, `supplier_parts`
  and `customer_orders` (src/refined/*.py);
* the quality-gate checks (src/tests/data_quality_checks.py);
* the pipeline orchestrator scripts (src/pipelines/run_sales_analytics.py
  and run_supplier_analytics.py).

Timestamps (`_ingested_at`, `_refined_at`, `unix_timestamp` values) are
modelled as `Int` seconds; dates as `Int` day numbers; decimal columns as `ℚ`.
Lineage field names drop the leading underscore of the SQL columns
(`ingested_at` stands for `_ingested_at`, and so on).
-/

/-! ## SQL value model

Nullable SQL values are `Option` values.  A SQL comparison in a `WHERE` or
`ON` clause keeps a row only when the predicate evaluates to TRUE; a NULL
operand makes it NULL, which filters the row out.  The `q…` / `i…` helpers
below return `true` exactly when the SQL predicate is TRUE.
-/

/-- SQL `a = b` on nullable integers (as in join conditions): TRUE only when
both sides are non-NULL and equal. -/
def sqlEqInt : Option Int → Option Int → Bool
  | some a, some b => a == b
  | _, _ => false

/-- SQL `a = b` on nullable strings (as in `o_orderstatus = 'F'`). -/
def sqlEqStr : Option String → Option String → Bool
  | some a, some b => a == b
  | _, _ => false

/-- SQL `a > b` on nullable decimals is TRUE only on non-NULL operands. -/
def qGT : Option ℚ → Option ℚ → Bool
  | some a, some b => decide (b < a)
  | _, _ => false

/-- SQL `a >= b` on nullable decimals. -/
def qGE : Option ℚ → Option ℚ → Bool
  | some a, some b => decide (b ≤ a)
  | _, _ => false

/-- SQL `a < b` on nullable decimals. -/
def qLT : Option ℚ → Option ℚ → Bool
  | some a, some b => decide (a < b)
  | _, _ => false

/-- SQL `a <= b` on nullable decimals. -/
def qLE : Option ℚ → Option ℚ → Bool
  | some a, some b => decide (a ≤ b)
  | _, _ => false

/-- SQL `a > b` on nullable day numbers (dates). -/
def iGT : Option Int → Option Int → Bool
  | some a, some b => decide (b < a)
  | _, _ => false

/-- NULL-propagating SQL addition. -/
def qAdd : Option ℚ → Option ℚ → Option ℚ
  | some a, some b => some (a + b)
  | _, _ => none

/-- NULL-propagating SQL subtraction. -/
def qSub : Option ℚ → Option ℚ → Option ℚ
  | some a, some b => some (a - b)
  | _, _ => none

/-- NULL-propagating SQL multiplication. -/
def qMul : Option ℚ → Option ℚ → Option ℚ
  | some a, some b => some (a * b)
  | _, _ => none

/-- NULL-propagating SQL subtraction on day numbers: `DATEDIFF(a, b)`. -/
def iSub : Option Int → Option Int → Option Int
  | some a, some b => some (a - b)
  | _, _ => none

/-- SQL `NULLIF(x, 0)`: turns a zero into NULL, leaves everything else. -/
def nullif0 : Option ℚ → Option ℚ
  | some a => if a = 0 then none else some a
  | none => none

/-- SQL division (Spark, non-ANSI): NULL operands propagate and a zero
denominator yields NULL rather than an error. -/
def qDiv : Option ℚ → Option ℚ → Option ℚ
  | some a, some b => if b = 0 then none else some (a / b)
  | _, _ => none

/-- SQL `SUM` over a column: NULLs are ignored; the empty set sums to NULL. -/
def sqlSum (l : List (Option ℚ)) : Option ℚ :=
  match l.filterMap id with
  | [] => none
  | vs => some vs.sum

/-- SQL `AVG` over a window partition: NULLs are ignored; an empty or
all-NULL partition averages to NULL. -/
def sqlAvg (l : List (Option ℚ)) : Option ℚ :=
  match l.filterMap id with
  | [] => none
  | vs => some (vs.sum / vs.length)

/-- Spark `round` at scale 0: HALF_UP, i.e. half away from zero. -/
def rndHalfUp (x : ℚ) : ℤ :=
  if 0 ≤ x then ⌊x + 1/2⌋ else -⌊-x + 1/2⌋

/-- Spark `ROUND(x, p)`: round to `p` decimal places, HALF_UP. -/
def roundAt (p : ℕ) (x : ℚ) : ℚ :=
  (rndHalfUp (x * 10 ^ p) : ℚ) / 10 ^ p

/-- `ROUND` lifted to a nullable value. -/
def sqlRound (p : ℕ) : Option ℚ → Option ℚ :=
  Option.map (roundAt p)

/-- SQL `COALESCE(x, d)`. -/
def coalesceQ (x : Option ℚ) (d : ℚ) : ℚ :=
  x.getD d

/-! ## Latest-wins deduplication

`ROW_NUMBER() OVER (PARTITION BY key ORDER BY _ingested_at DESC)` followed by
`WHERE _rn = 1` keeps, per key, one row with the maximal timestamp.  The SQL
text declares no secondary ordering, so among rows sharing the maximal
timestamp the engine keeps whichever it enumerates first; the embedding
realises that by scanning the rowset in order and keeping the first row that
attains the maximum of its key group.
-/

/-- The row kept for one key group: fold over the group's remaining rows,
replacing the candidate only on a strictly larger timestamp (so the first
row attaining the maximum wins). -/
def latestOf {α : Type} (ts : α → Int) (r : α) (l : List α) : α :=
  l.foldl (fun b x => if ts b < ts x then x else b) r

/-- `SELECT * FROM (… ROW_NUMBER() OVER (PARTITION BY key ORDER BY ts DESC) rn)
WHERE rn = 1`: one surviving row per key, latest timestamp wins. -/
def dedupLatest {α κ : Type} [DecidableEq κ] (key : α → κ) (ts : α → Int) :
    List α → List α
  | [] => []
  | r :: rest =>
    latestOf ts r (rest.filter (fun x => key x = key r)) ::
      dedupLatest key ts (rest.filter (fun x => key x ≠ key r))
termination_by l => l.length
decreasing_by
  simp only [List.length_cons]
  exact Nat.lt_succ_of_le (List.length_filter_le _ _)

/-! ## ExtractEngine: orders (src/extract/extract_orders.py) -/

/-- A row of the TPC-H `orders` source relation (the columns projected by
`tv_orders_raw`). -/
structure SrcOrder where
  o_orderkey : Option Int
  o_custkey : Option Int
  o_orderstatus : Option String
  o_totalprice : Option ℚ
  o_orderdate : Option Int
  o_orderpriority : Option String
  o_clerk : Option String
  o_shippriority : Option Int
  o_comment : Option String
  deriving DecidableEq

/-- A bronze `orders` row: the source columns plus the lineage columns
`_ingested_at`, `_source_system`, `_batch_id`. -/
structure OrderRow extends SrcOrder where
  ingested_at : Int
  source_system : String
  batch_id : String
  deriving DecidableEq

/-- Stage 1 (`tv_orders_raw`): project the source columns and attach
`current_timestamp()` (one value per run), `'tpch'` and the run's batch id. -/
def tv_orders_raw (src : List SrcOrder) (now : Int) (batch : String) :
    List OrderRow :=
  src.map (fun s => { toSrcOrder := s, ingested_at := now,
                      source_system := "tpch", batch_id := batch })

/-- Stage 2 (`tv_orders_cleaned`):
`WHERE o_orderkey IS NOT NULL AND o_orderdate IS NOT NULL`. -/
def tv_orders_cleaned (rows : List OrderRow) : List OrderRow :=
  rows.filter (fun r => r.o_orderkey.isSome && r.o_orderdate.isSome)

/-- Stage 3 (`tv_orders_deduped`): keep the latest row per `o_orderkey`. -/
def tv_orders_deduped (rows : List OrderRow) : List OrderRow :=
  dedupLatest (fun r => r.o_orderkey) (fun r => r.ingested_at) rows

/-- The whole orders extract: capture, clean, dedup (the final
`INSERT OVERWRITE` writes exactly this rowset). -/
def extract_orders (src : List SrcOrder) (now : Int) (batch : String) :
    List OrderRow :=
  tv_orders_deduped (tv_orders_cleaned (tv_orders_raw src now batch))

/-! ## ExtractEngine: customers (src/extract/extract_customers.py) -/

/-- A row of the TPC-H `customer` source relation. -/
structure SrcCustomer where
  c_custkey : Option Int
  c_name : Option String
  c_address : Option String
  c_nationkey : Option Int
  c_phone : Option String
  c_acctbal : Option ℚ
  c_mktsegment : Option String
  c_comment : Option String
  deriving DecidableEq

/-- A bronze `customers` row with lineage columns. -/
structure CustomerRow extends SrcCustomer where
  ingested_at : Int
  source_system : String
  batch_id : String
  deriving DecidableEq

/-- Stage 1 (`tv_customers_raw`). -/
def tv_customers_raw (src : List SrcCustomer) (now : Int) (batch : String) :
    List CustomerRow :=
  src.map (fun s => { toSrcCustomer := s, ingested_at := now,
                      source_system := "tpch", batch_id := batch })

/-- Stage 2 (`tv_customers_cleaned`):
`WHERE c_custkey IS NOT NULL AND c_name IS NOT NULL`. -/
def tv_customers_cleaned (rows : List CustomerRow) : List CustomerRow :=
  rows.filter (fun r => r.c_custkey.isSome && r.c_name.isSome)

/-- Stage 3 (`tv_customers_deduped`): latest row per `c_custkey`. -/
def tv_customers_deduped (rows : List CustomerRow) : List CustomerRow :=
  dedupLatest (fun r => r.c_custkey) (fun r => r.ingested_at) rows

/-- The whole customers extract. -/
def extract_customers (src : List SrcCustomer) (now : Int) (batch : String) :
    List CustomerRow :=
  tv_customers_deduped (tv_customers_cleaned (tv_customers_raw src now batch))

/-! ## ExtractEngine: lineitem (src/extract/extract_lineitem.py) -/

/-- A bronze `lineitem` row (source columns of `tv_lineitem_raw` plus
lineage). -/
structure LineitemRow where
  l_orderkey : Option Int
  l_partkey : Option Int
  l_suppkey : Option Int
  l_linenumber : Option Int
  l_quantity : Option ℚ
  l_extendedprice : Option ℚ
  l_discount : Option ℚ
  l_tax : Option ℚ
  l_returnflag : Option String
  l_linestatus : Option String
  l_shipdate : Option Int
  l_commitdate : Option Int
  l_receiptdate : Option Int
  l_shipinstruct : Option String
  l_shipmode : Option String
  l_comment : Option String
  ingested_at : Int
  source_system : String
  batch_id : String
  deriving DecidableEq

/-- Stage 2 (`tv_lineitem_cleaned`): `WHERE l_orderkey IS NOT NULL AND
l_linenumber IS NOT NULL AND l_quantity > 0 AND l_extendedprice > 0`. -/
def tv_lineitem_cleaned (rows : List LineitemRow) : List LineitemRow :=
  rows.filter (fun r =>
    r.l_orderkey.isSome && r.l_linenumber.isSome &&
    qGT r.l_quantity (some 0) && qGT r.l_extendedprice (some 0))

/-- Stage 3 (`tv_lineitem_deduped`): latest row per composite key
`(l_orderkey, l_linenumber)`. -/
def tv_lineitem_deduped (rows : List LineitemRow) : List LineitemRow :=
  dedupLatest (fun r => (r.l_orderkey, r.l_linenumber))
    (fun r => r.ingested_at) rows

/-! ## Pipeline orchestrator
(src/pipelines/run_sales_analytics.py, run_supplier_analytics.py)

Both driver scripts share the same shape: a `run_stage` helper that invokes a
child notebook and converts its outcome into a result record, an ordered list
of stage groups, a gate after the schema, extract and refined groups that
raises a `RuntimeError` at the first critical failure it finds, and a final
summary that raises a `RuntimeError` listing all failed stage names.

The child-notebook invocation is modelled by its outcome: `Except.ok` when
`dbutils.notebook.run` returns, `Except.error msg` when it raises an
exception whose text is `msg`.  Wall-clock elapsed seconds are an opaque
per-stage parameter.  The Python `results` dict (insertion-ordered, unique
keys) is an association list in insertion order.
-/

/-- Stage outcome status recorded by `run_stage`. -/
inductive StageStatus
  | SUCCESS
  | FAILED
  deriving DecidableEq

/-- The record `run_stage` returns: `{"status": …, "elapsed": …}` on success
and `{"status": …, "elapsed": …, "error": str(e)}` on failure. -/
structure StageResult where
  status : StageStatus
  elapsed : ℚ
  error : Option String
  deriving DecidableEq

/-- `run_stage`: `try: dbutils.notebook.run(…)` → SUCCESS; `except Exception
as e` → FAILED with the **full** `str(e)` stored under `"error"`. -/
def run_stage (elapsed : ℚ) (outcome : Except String String) : StageResult :=
  match outcome with
  | .ok _ => { status := .SUCCESS, elapsed := elapsed, error := none }
  | .error e => { status := .FAILED, elapsed := elapsed, error := some e }

/-- The error text as it appears on the failure log line
(`print(f"  ✗ FAILED — {elapsed}s — {str(e)[:200]}")`): the first 200
characters of the exception text. -/
def printedErrorText (e : String) : String :=
  String.mk (e.data.take 200)

/-- The `RuntimeError`s a driver script can raise, by the stage names their
messages carry:
* `gateAbort s` — the schema / critical-extract / refined gates
  (`raise RuntimeError(f"… failed …: {s}")`), naming the one stage at which
  the gate loop stopped;
* `runFailures l` — the final summary
  (`raise RuntimeError(f"Pipeline finished with failures: {list(failed.keys())}")`),
  naming every stage recorded as FAILED. -/
inductive PipelineError
  | gateAbort (stage : String)
  | runFailures (stages : List String)
  deriving DecidableEq

/-- The stage names appearing in a terminal error's message. -/
def namedStages : PipelineError → List String
  | .gateAbort s => [s]
  | .runFailures l => l

/-- The outcome of one driver-script run: the recorded `results` dict (in
insertion order) and the terminal `RuntimeError`, if any. -/
structure RunOutcome where
  results : List (String × StageResult)
  error : Option PipelineError
  deriving DecidableEq

/-- The failed stage names of a results dict, in insertion order
(`failed = {k: v for k, v in results.items() if v["status"] == "FAILED"}`). -/
def failedNames (rs : List (String × StageResult)) : List String :=
  (rs.filter (fun p => p.2.status = StageStatus.FAILED)).map Prod.fst

/-- One stage group of a driver script together with the gate run after it:
`gateCritical` lists, in the order the gate's loop visits them, the stage
names whose failure makes the gate raise.  (The schema and refined gates of
the scripts loop over all of `results` — at those points only schema-named,
resp. only `ref_`-prefixed, stages can match, so the loop order equals the
listed order; the extract gate loops over an explicit critical list.) -/
structure GroupSpec where
  stages : List String
  gateCritical : List String

/-- Execute one group: run every stage of the group in order.  The child
notebook of stage `n` raises with text `fails n` (or returns, when `none`);
the wall-clock elapsed time of stage `n` is `elapsedOf n`. -/
def groupResults (fails : String → Option String) (elapsedOf : String → ℚ)
    (names : List String) : List (String × StageResult) :=
  names.map (fun n =>
    (n, run_stage (elapsedOf n)
          (match fails n with
           | none => Except.ok ""
           | some e => Except.error e)))

/-- Execute the remaining groups of a driver script, given the results
accumulated so far.  After a group, its gate raises at the first critical
stage found FAILED in `results`; with no groups left, the summary raises
iff any recorded stage FAILED, listing all failed names. -/
def runPipelineAux (fails : String → Option String) (elapsedOf : String → ℚ) :
    List GroupSpec → List (String × StageResult) → RunOutcome
  | [], acc =>
    { results := acc,
      error := if failedNames acc = [] then none
               else some (.runFailures (failedNames acc)) }
  | g :: rest, acc =>
    let acc' := acc ++ groupResults fails elapsedOf g.stages
    match g.gateCritical.find? (fun c => decide (c ∈ failedNames acc')) with
    | some c => { results := acc', error := some (.gateAbort c) }
    | none => runPipelineAux fails elapsedOf rest acc'

/-- Execute a whole driver script from an empty results dict. -/
def runPipeline (groups : List GroupSpec) (fails : String → Option String)
    (elapsedOf : String → ℚ) : RunOutcome :=
  runPipelineAux fails elapsedOf groups []

/-- Group 1 of both driver scripts — schema DDL; its gate raises on any
schema failure. -/
def schemaGroup : GroupSpec :=
  { stages := ["schema_bronze", "schema_silver", "schema_gold"],
    gateCritical := ["schema_bronze", "schema_silver", "schema_gold"] }

/-- Group 2 of the sales script — extract; its gate loops over
`["ext_orders", "ext_lineitem"]` only. -/
def salesExtractGroup : GroupSpec :=
  { stages := ["ext_nation_region", "ext_customers", "ext_suppliers",
               "ext_parts", "ext_orders", "ext_lineitem"],
    gateCritical := ["ext_orders", "ext_lineitem"] }

/-- Group 3 of the sales script — refined; its gate raises on any `ref_`
failure. -/
def salesRefinedGroup : GroupSpec :=
  { stages := ["ref_order_details", "ref_customer_orders"],
    gateCritical := ["ref_order_details", "ref_customer_orders"] }

/-- Group 4 of the sales script — gold views; no gate follows it. -/
def salesViewsGroup : GroupSpec :=
  { stages := ["vw_revenue", "vw_clv", "vw_trends"], gateCritical := [] }

/-- Group 5 of both driver scripts — the quality-check stage; no gate. -/
def qualityGroup : GroupSpec :=
  { stages := ["quality"], gateCritical := [] }

/-- The stage groups of src/pipelines/run_sales_analytics.py. -/
def salesGroups : List GroupSpec :=
  [schemaGroup, salesExtractGroup, salesRefinedGroup, salesViewsGroup,
   qualityGroup]

/-- Group 2 of the supplier script — extract; its gate loops over
`["ext_suppliers", "ext_parts"]` only. -/
def supplierExtractGroup : GroupSpec :=
  { stages := ["ext_nation_region", "ext_suppliers", "ext_parts",
               "ext_orders", "ext_lineitem"],
    gateCritical := ["ext_suppliers", "ext_parts"] }

/-- Group 3 of the supplier script — refined. -/
def supplierRefinedGroup : GroupSpec :=
  { stages := ["ref_order_details", "ref_supplier_parts"],
    gateCritical := ["ref_order_details", "ref_supplier_parts"] }

/-- Group 4 of the supplier script — gold views. -/
def supplierViewsGroup : GroupSpec :=
  { stages := ["vw_supplier"], gateCritical := [] }

/-- The stage groups of src/pipelines/run_supplier_analytics.py. -/
def supplierGroups : List GroupSpec :=
  [schemaGroup, supplierExtractGroup, supplierRefinedGroup,
   supplierViewsGroup, qualityGroup]

/-- One run of the sales-analytics driver script. -/
def runSales (fails : String → Option String) (elapsedOf : String → ℚ) :
    RunOutcome :=
  runPipeline salesGroups fails elapsedOf

/-- One run of the supplier-analytics driver script. -/
def runSupplier (fails : String → Option String) (elapsedOf : String → ℚ) :
    RunOutcome :=
  runPipeline supplierGroups fails elapsedOf

/-! ## RefineEngine: order_details (src/refined/refined_order_details.py) -/

/-- A bronze `parts` row (the columns of `tv_parts_raw` in
src/extract/extract_parts.py, with lineage). -/
structure PartRow where
  p_partkey : Option Int
  p_name : Option String
  p_mfgr : Option String
  p_brand : Option String
  p_type : Option String
  p_size : Option Int
  p_container : Option String
  p_retailprice : Option ℚ
  p_comment : Option String
  ingested_at : Int
  source_system : String
  batch_id : String
  deriving DecidableEq

/-- A row of `tv_order_details_joined` (stage 1 of the refine): the aliased
columns selected from the orders-lineitem-parts join. -/
structure JoinedOrderDetail where
  order_key : Option Int
  line_number : Option Int
  customer_key : Option Int
  part_key : Option Int
  supplier_key : Option Int
  order_date : Option Int
  order_status : Option String
  order_priority : Option String
  part_name : Option String
  part_brand : Option String
  part_type : Option String
  quantity : Option ℚ
  extended_price : Option ℚ
  discount_pct : Option ℚ
  tax_pct : Option ℚ
  ship_date : Option Int
  commit_date : Option Int
  receipt_date : Option Int
  ship_mode : Option String
  return_flag : Option String
  deriving DecidableEq

/-- Build one joined row from an order row, a matching lineitem row and the
(possibly absent) left-joined parts row. -/
def mkJoinedOrderDetail (o : OrderRow) (li : LineitemRow) (p : Option PartRow) :
    JoinedOrderDetail :=
  { order_key := o.o_orderkey
    line_number := li.l_linenumber
    customer_key := o.o_custkey
    part_key := li.l_partkey
    supplier_key := li.l_suppkey
    order_date := o.o_orderdate
    order_status := o.o_orderstatus
    order_priority := o.o_orderpriority
    part_name := (p.map PartRow.p_name).getD none
    part_brand := (p.map PartRow.p_brand).getD none
    part_type := (p.map PartRow.p_type).getD none
    quantity := li.l_quantity
    extended_price := li.l_extendedprice
    discount_pct := li.l_discount
    tax_pct := li.l_tax
    ship_date := li.l_shipdate
    commit_date := li.l_commitdate
    receipt_date := li.l_receiptdate
    ship_mode := li.l_shipmode
    return_flag := li.l_returnflag }

/-- `LEFT JOIN parts p ON li.l_partkey = p.p_partkey`: every matching parts
row fans out; no match keeps the row with NULL part columns. -/
def leftJoinParts (parts : List PartRow) (o : OrderRow) (li : LineitemRow) :
    List JoinedOrderDetail :=
  match parts.filter (fun p => sqlEqInt li.l_partkey p.p_partkey) with
  | [] => [mkJoinedOrderDetail o li none]
  | ps => ps.map (fun p => mkJoinedOrderDetail o li (some p))

/-- Stage 1 (`tv_order_details_joined`): orders INNER JOIN lineitem on
`o_orderkey = l_orderkey`, LEFT JOIN parts on `l_partkey = p_partkey`. -/
def tv_order_details_joined (orders : List OrderRow)
    (lineitem : List LineitemRow) (parts : List PartRow) :
    List JoinedOrderDetail :=
  orders.flatMap (fun o =>
    (lineitem.filter (fun li => sqlEqInt o.o_orderkey li.l_orderkey)).flatMap
      (fun li => leftJoinParts parts o li))

/-- `ROUND(extended_price / NULLIF(quantity, 0), 2)` — the `unit_price`
column of `tv_order_details_calculated`. -/
def unit_price (extended_price quantity : Option ℚ) : Option ℚ :=
  sqlRound 2 (qDiv extended_price (nullif0 quantity))

/-- `ROUND(extended_price * (1 - discount_pct), 2)` — the `net_revenue`
column. -/
def net_revenue (extended_price discount_pct : Option ℚ) : Option ℚ :=
  sqlRound 2 (qMul extended_price (qSub (some 1) discount_pct))

/-- A row of `tv_order_details_calculated` (stage 2): the joined columns plus
the derived business fields.  The `order_year` / `order_month` /
`order_quarter` calendar projections of `order_date` are not embedded: dates
are abstract day numbers here and no verified property mentions them. -/
structure CalcOrderDetail extends JoinedOrderDetail where
  unit_price_col : Option ℚ
  net_revenue_col : Option ℚ
  tax_amount : Option ℚ
  total_charge : Option ℚ
  shipping_delay_days : Option Int
  delivery_delay_days : Option Int
  is_late_shipment : Bool
  deriving DecidableEq

/-- Stage 2 (`tv_order_details_calculated`): compute the derived fields of
one joined row. -/
def calcOrderDetail (j : JoinedOrderDetail) : CalcOrderDetail :=
  { toJoinedOrderDetail := j
    unit_price_col := unit_price j.extended_price j.quantity
    net_revenue_col := net_revenue j.extended_price j.discount_pct
    tax_amount := sqlRound 2 (qMul (qMul j.extended_price
      (qSub (some 1) j.discount_pct)) j.tax_pct)
    total_charge := sqlRound 2 (qMul (qMul j.extended_price
      (qSub (some 1) j.discount_pct)) (qAdd (some 1) j.tax_pct))
    shipping_delay_days := iSub j.ship_date j.order_date
    delivery_delay_days := iSub j.receipt_date j.ship_date
    is_late_shipment := iGT j.ship_date j.commit_date }

/-- Stage 3 (`tv_order_details_final`): the quality gate
`WHERE quantity > 0 AND extended_price > 0 AND net_revenue >= 0`
(lineage columns `_refined_at`/`_batch_id` are attached at this stage; they
are per-run constants and are carried separately by the caller). -/
def tv_order_details_final (rows : List CalcOrderDetail) :
    List CalcOrderDetail :=
  rows.filter (fun r =>
    qGT r.quantity (some 0) && qGT r.extended_price (some 0) &&
    qGE r.net_revenue_col (some 0))

/-- The silver `order_details` rowset produced from the bronze inputs (what
the final `INSERT OVERWRITE` writes, lineage columns aside). -/
def refined_order_details (orders : List OrderRow) (lineitem : List LineitemRow)
    (parts : List PartRow) : List CalcOrderDetail :=
  tv_order_details_final
    ((tv_order_details_joined orders lineitem parts).map calcOrderDetail)

/-! ## RefineEngine: supplier_parts derived fields
(src/refined/refined_supplier_parts.py)

Only the division-based derived columns are claimed about; they are embedded
at expression level, exactly as written in the SQL. -/

/-- `ROUND((retail_price - supply_cost) / NULLIF(retail_price, 0), 4)` — the
`margin_pct` column of `tv_supplier_parts_margin`. -/
def margin_pct (retail_price supply_cost : Option ℚ) : Option ℚ :=
  sqlRound 4 (qDiv (qSub retail_price supply_cost) (nullif0 retail_price))

/-- `ROUND(supply_cost / NULLIF(AVG(supply_cost) OVER (PARTITION BY
supplier_region, part_type), 0), 4)` — the `cost_vs_region_avg` column of
`tv_supplier_parts_final`; `partitionCosts` is the `supply_cost` column of
the row's window partition. -/
def cost_vs_region_avg (supply_cost : Option ℚ)
    (partitionCosts : List (Option ℚ)) : Option ℚ :=
  sqlRound 4 (qDiv supply_cost (nullif0 (sqlAvg partitionCosts)))

/-! ## RefineEngine: customer_orders
(src/refined/refined_customer_orders.py) -/

/-- A row of `tv_customers_geo` (stage 1): a bronze customer with the
left-joined nation and region names. -/
structure CustomerGeoRow where
  customer_key : Option Int
  customer_name : Option String
  market_segment : Option String
  account_balance : Option ℚ
  nation_name : Option String
  region_name : Option String
  deriving DecidableEq

/-- `COUNT(o.o_orderkey)` for the group of one customer key: the number of
orders matching the key (`ON cg.customer_key = o.o_custkey`) whose
`o_orderkey` is non-NULL.  With no matching order the LEFT JOIN leaves one
all-NULL orders row in the group and the count is 0. -/
def totalOrdersOf (ck : Option Int) (orders : List OrderRow) : Nat :=
  ((orders.filter (fun o => sqlEqInt ck o.o_custkey)).filter
    (fun o => o.o_orderkey.isSome)).length

/-- A row of `tv_customer_order_agg` (stage 2).  Of the aggregate columns the
embedding carries the grouping columns, the order counts, the revenue sums
and the fulfillment rate; the date-derived aggregates
(`first_order_date` … `customer_tenure_days`, `avg_order_value`) and the
stage-3/4 window additions (`rfm_*` NTILE scores, `customer_segment`) are
per-row derived values that no verified property mentions and that do not
affect which customers appear. -/
structure CustomerOrderAggRow where
  customer_key : Option Int
  customer_name : Option String
  market_segment : Option String
  nation_name : Option String
  region_name : Option String
  account_balance : Option ℚ
  total_orders : Nat
  total_revenue : ℚ
  fulfilled_orders : Nat
  open_orders : Nat
  partly_filled_orders : Nat
  fulfillment_rate : ℚ
  deriving DecidableEq

/-- The aggregate row of one customer group: the LEFT JOIN to bronze orders
on `cg.customer_key = o.o_custkey`, aggregated. -/
def aggRowFor (orders : List OrderRow) (cg : CustomerGeoRow) :
    CustomerOrderAggRow :=
  let matched := orders.filter (fun o => sqlEqInt cg.customer_key o.o_custkey)
  let total := totalOrdersOf cg.customer_key orders
  let fulfilled := (matched.filter
    (fun o => sqlEqStr o.o_orderstatus (some "F"))).length
  { customer_key := cg.customer_key
    customer_name := cg.customer_name
    market_segment := cg.market_segment
    nation_name := cg.nation_name
    region_name := cg.region_name
    account_balance := cg.account_balance
    total_orders := total
    total_revenue := coalesceQ (sqlSum (matched.map (fun o => o.o_totalprice))) 0
    fulfilled_orders := fulfilled
    open_orders := (matched.filter
      (fun o => sqlEqStr o.o_orderstatus (some "O"))).length
    partly_filled_orders := (matched.filter
      (fun o => sqlEqStr o.o_orderstatus (some "P"))).length
    fulfillment_rate :=
      if 0 < total then roundAt 2 (100 * (fulfilled : ℚ) / (total : ℚ))
      else 0 }

/-- Stage 2 (`tv_customer_order_agg`): GROUP BY the six customer columns —
one aggregate row per distinct `tv_customers_geo` row (duplicates collapse;
`dedupLatest` with a constant timestamp keeps the first occurrence of each
distinct row, which is exactly the set of groups). -/
def tv_customer_order_agg (custGeo : List CustomerGeoRow)
    (orders : List OrderRow) : List CustomerOrderAggRow :=
  (dedupLatest (fun cg => cg) (fun _ => 0) custGeo).map (aggRowFor orders)

/-- Stage 3 (`tv_customer_rfm`): `WHERE total_orders > 0` — only customers
with at least one counted order survive; the NTILE score columns added by
this view do not change which rows it has. -/
def tv_customer_rfm (custGeo : List CustomerGeoRow) (orders : List OrderRow) :
    List CustomerOrderAggRow :=
  (tv_customer_order_agg custGeo orders).filter
    (fun r => decide (0 < r.total_orders))

/-! ## Quality-gate checks (src/tests/data_quality_checks.py) -/

/-- Status of one quality check row. -/
inductive CheckStatus
  | PASS
  | FAIL
  | STALE
  deriving DecidableEq

/-- `CASE WHEN violation_count = 0 THEN 'PASS' ELSE 'FAIL' END`. -/
def ruleStatus (violation_count : Nat) : CheckStatus :=
  if violation_count = 0 then .PASS else .FAIL

/-- Check 4, `'No negative net_revenue'`:
`count(CASE WHEN net_revenue < 0 THEN 1 END)` over silver `order_details`. -/
def negNetRevenueViolations (rows : List CalcOrderDetail) : Nat :=
  (rows.filter (fun r => qLT r.net_revenue_col (some 0))).length

/-- Check 4, `'No zero/neg quantity'`:
`count(CASE WHEN quantity <= 0 THEN 1 END)` over silver `order_details`. -/
def zeroNegQuantityViolations (rows : List CalcOrderDetail) : Nat :=
  (rows.filter (fun r => qLE r.quantity (some 0))).length

/-- Check 5 (freshness), the `hours_since` column:
`round((unix_timestamp(current_timestamp()) - unix_timestamp(last_refresh)) / 3600, 1)`
where `last_refresh = max(lineage timestamp)`. -/
def hoursSince (now lastRefresh : Int) : ℚ :=
  roundAt 1 (((now - lastRefresh : ℤ) : ℚ) / 3600)

/-- Check 5 (freshness), the status column:
`CASE WHEN hours_since <= 25 THEN 'PASS' ELSE 'STALE' END`. -/
def freshnessStatus (now lastRefresh : Int) : CheckStatus :=
  if hoursSince now lastRefresh ≤ 25 then .PASS else .STALE

/-! ## Concrete sample inputs

Small fixed rows and failure assignments used by the concrete
(counter)example theorems below. -/

/-- A bronze orders row with key 2, order date 1, ingest timestamp 5,
comment `A`. -/
def tieRowA : OrderRow :=
  { o_orderkey := some 2, o_custkey := none, o_orderstatus := none,
    o_totalprice := none, o_orderdate := some 1, o_orderpriority := none,
    o_clerk := none, o_shippriority := none, o_comment := some "A",
    ingested_at := 5, source_system := "tpch", batch_id := "b" }

/-- Same key, order date and ingest timestamp as `tieRowA`, comment `B`. -/
def tieRowB : OrderRow :=
  { tieRowA with o_comment := some "B" }

/-- Scenario row `(id=1, order_date=NULL)`. -/
def c4NullDateOrder : OrderRow :=
  { o_orderkey := some 1, o_custkey := none, o_orderstatus := none,
    o_totalprice := none, o_orderdate := none, o_orderpriority := none,
    o_clerk := none, o_shippriority := none, o_comment := none,
    ingested_at := 10, source_system := "tpch", batch_id := "b" }

/-- Scenario row `(id=2, order_date=d1, ingested_at=t1)` with `d1=100`,
`t1=10`. -/
def c4OrderT1 : OrderRow :=
  { c4NullDateOrder with
    o_orderkey := some 2,
    o_orderdate := some 100,
    ingested_at := 10 }

/-- Scenario row `(id=2, order_date=d1, ingested_at=t2)` with `t2=20>t1`. -/
def c4OrderT2 : OrderRow :=
  { c4OrderT1 with ingested_at := 20 }

/-- The end-to-end scenario source rowset of the spec. -/
def c4Orders : List OrderRow :=
  [c4NullDateOrder, c4OrderT1, c4OrderT2]

/-- A lineitem row passing every clean predicate. -/
def liGood : LineitemRow :=
  { l_orderkey := some 1, l_partkey := some 1, l_suppkey := some 1,
    l_linenumber := some 1, l_quantity := some 2, l_extendedprice := some 10,
    l_discount := some 0, l_tax := some 0, l_returnflag := none,
    l_linestatus := none, l_shipdate := some 60, l_commitdate := some 55,
    l_receiptdate := some 70, l_shipinstruct := none, l_shipmode := none,
    l_comment := none, ingested_at := 0, source_system := "tpch",
    batch_id := "b" }

/-- A lineitem row with a NULL natural-key column. -/
def liNullKey : LineitemRow :=
  { liGood with l_orderkey := none }

/-- A lineitem row with non-positive quantity. -/
def liNegQty : LineitemRow :=
  { liGood with l_linenumber := some 2, l_quantity := some (-1) }

/-- Stage outcomes where the non-critical `ext_customers` stage and the
critical `ext_orders` stage both raise. -/
def c1Fails : String → Option String :=
  fun n => if n = "ext_customers" then some "boom"
           else if n = "ext_orders" then some "kaput" else none

/-- Stage outcomes where both critical extract stages raise. -/
def c2Fails : String → Option String :=
  fun n => if n = "ext_orders" then some "boom"
           else if n = "ext_lineitem" then some "boom" else none

/-- Stage outcomes where only the critical `ext_orders` stage raises. -/
def c2WitFails : String → Option String :=
  fun n => if n = "ext_orders" then some "down" else none

/-- An exception text of 201 characters. -/
def longErrMsg : String :=
  String.mk (List.replicate 201 'x')

/-- A bronze orders row joining with `w9line` on key 1. -/
def w9order : OrderRow :=
  { o_orderkey := some 1, o_custkey := some 1, o_orderstatus := some "F",
    o_totalprice := some 100, o_orderdate := some 50,
    o_orderpriority := none, o_clerk := none, o_shippriority := none,
    o_comment := none, ingested_at := 0, source_system := "tpch",
    batch_id := "b" }

/-- A bronze lineitem row for order 1, line 1, quantity 2, price 10. -/
def w9line : LineitemRow :=
  { liGood with l_partkey := some 7 }

/-- A bronze parts row with key 7. -/
def w9part : PartRow :=
  { p_partkey := some 7, p_name := some "widget", p_mfgr := none,
    p_brand := none, p_type := none, p_size := none, p_container := none,
    p_retailprice := some 20, p_comment := none, ingested_at := 0,
    source_system := "tpch", batch_id := "b" }

/-- The silver order-details row the `w9*` bronze rows produce. -/
def w9row : CalcOrderDetail :=
  calcOrderDetail (mkJoinedOrderDetail w9order w9line (some w9part))

/-- A customer (key 1) with one order in `c10Orders`. -/
def c10CustA : CustomerGeoRow :=
  { customer_key := some 1, customer_name := some "a",
    market_segment := none, account_balance := none, nation_name := none,
    region_name := none }

/-- A customer (key 2) with no order in `c10Orders`. -/
def c10CustB : CustomerGeoRow :=
  { c10CustA with customer_key := some 2, customer_name := some "b" }

/-- One bronze order placed by customer 1. -/
def c10Order : OrderRow :=
  { w9order with o_orderkey := some 11 }

/-- The aggregate row of customer 1 over `[c10Order]`. -/
def c10RowA : CustomerOrderAggRow :=
  aggRowFor [c10Order] c10CustA

/-! ## Supporting lemmas: latest-wins deduplication -/

theorem latestOf_cons {α : Type} (ts : α → Int) (r a : α) (l : List α) :
    latestOf ts r (a :: l) = latestOf ts (if ts r < ts a then a else r) l := rfl

theorem latestOf_mem {α : Type} (ts : α → Int) (r : α) (l : List α) :
    latestOf ts r l ∈ r :: l := by
  induction l generalizing r with
  | nil => simp [latestOf]
  | cons a l ih =>
    rw [latestOf_cons]
    rcases List.mem_cons.mp (ih (if ts r < ts a then a else r)) with h | h
    · rw [h]; split <;> simp
    · simp [h]

theorem latestOf_ts_init {α : Type} (ts : α → Int) (r : α) (l : List α) :
    ts r ≤ ts (latestOf ts r l) := by
  induction l generalizing r with
  | nil => simp [latestOf]
  | cons a l ih =>
    rw [latestOf_cons]
    refine le_trans ?_ (ih (if ts r < ts a then a else r))
    split <;> simp_all [le_of_lt]

theorem latestOf_ts_mem {α : Type} (ts : α → Int) (r : α) (l : List α) (x : α)
    (hx : x ∈ l) : ts x ≤ ts (latestOf ts r l) := by
  induction l generalizing r with
  | nil => simp at hx
  | cons a l ih =>
    rw [latestOf_cons]
    rcases List.mem_cons.mp hx with rfl | hx
    · refine le_trans ?_ (latestOf_ts_init ts (if ts r < ts x then x else r) l)
      split
      · exact le_refl _
      · exact le_of_not_lt (by assumption)
    · exact ih (if ts r < ts a then a else r) hx

theorem key_latestOf {α κ : Type} (key : α → κ) (ts : α → Int) (r : α)
    (l : List α) (h : ∀ x ∈ l, key x = key r) :
    key (latestOf ts r l) = key r := by
  rcases List.mem_cons.mp (latestOf_mem ts r l) with h' | h'
  · rw [h']
  · exact h _ h'

theorem dedupLatest_subset {α κ : Type} [DecidableEq κ] (key : α → κ)
    (ts : α → Int) (l : List α) :
    ∀ x ∈ dedupLatest key ts l, x ∈ l := by
  induction l using dedupLatest.induct key ts with
  | case1 => simp [dedupLatest]
  | case2 r rest ih =>
    intro x hx
    rw [dedupLatest] at hx
    rcases List.mem_cons.mp hx with rfl | hx
    · rcases List.mem_cons.mp
        (latestOf_mem ts r (rest.filter (fun x => key x = key r))) with h | h
      · simp [h]
      · exact List.mem_cons_of_mem _ (List.mem_of_mem_filter h)
    · exact List.mem_cons_of_mem _ (List.mem_of_mem_filter (ih x hx))

theorem dedupLatest_key_ne {α κ : Type} [DecidableEq κ] (key : α → κ)
    (ts : α → Int) (r : α) (rest : List α) :
    ∀ y ∈ dedupLatest key ts (rest.filter (fun x => key x ≠ key r)),
      key y ≠ key r := by
  intro y hy
  have := dedupLatest_subset key ts _ y hy
  simpa using (List.mem_filter.mp this).2

theorem dedupLatest_count {α κ : Type} [DecidableEq κ] (key : α → κ)
    (ts : α → Int) (l : List α) :
    ∀ k : κ, (∃ x ∈ l, key x = k) →
      ((dedupLatest key ts l).filter (fun x => key x = k)).length = 1 := by
  induction l using dedupLatest.induct key ts with
  | case1 => simp
  | case2 r rest ih =>
    intro k hk
    rw [dedupLatest]
    have hkgrp : ∀ x ∈ rest.filter (fun x => key x = key r), key x = key r :=
      fun x hx => by simpa using (List.mem_filter.mp hx).2
    by_cases hkr : key r = k
    · have hhead : key (latestOf ts r (rest.filter (fun x => key x = key r))) = k := by
        rw [key_latestOf key ts r _ hkgrp]; exact hkr
      have htail : ((dedupLatest key ts
          (rest.filter (fun x => key x ≠ key r))).filter
            (fun x => key x = k)).length = 0 := by
        rw [List.length_eq_zero, List.filter_eq_nil_iff]
        intro y hy
        have := dedupLatest_key_ne key ts r rest y hy
        simp only [decide_eq_true_eq]
        exact fun e => this (e.trans hkr.symm)
      rw [List.filter_cons_of_pos (by simp [hhead]), List.length_cons, htail]
    · have hhead : ¬ key (latestOf ts r (rest.filter (fun x => key x = key r))) = k := by
        rw [key_latestOf key ts r _ hkgrp]; exact hkr
      rcases hk with ⟨x, hx, hxk⟩
      rcases List.mem_cons.mp hx with rfl | hx
      · exact absurd hxk hkr
      · have hx' : x ∈ rest.filter (fun x => key x ≠ key r) := by
          rw [List.mem_filter]
          refine ⟨hx, ?_⟩
          simp only [ne_eq, decide_eq_true_eq, decide_not, Bool.not_eq_true']
          simp only [decide_eq_false_iff_not]
          intro e
          exact hkr (by rw [← e]; exact hxk)
        rw [List.filter_cons_of_neg (by simp [hhead])]
        exact ih k ⟨x, hx', hxk⟩

theorem dedupLatest_maxTs {α κ : Type} [DecidableEq κ] (key : α → κ)
    (ts : α → Int) (l : List α) :
    ∀ y ∈ dedupLatest key ts l, ∀ x ∈ l, key x = key y → ts x ≤ ts y := by
  induction l using dedupLatest.induct key ts with
  | case1 => simp [dedupLatest]
  | case2 r rest ih =>
    intro y hy x hx hk
    rw [dedupLatest] at hy
    have hkgrp : ∀ z ∈ rest.filter (fun x => key x = key r), key z = key r :=
      fun z hz => by simpa using (List.mem_filter.mp hz).2
    rcases List.mem_cons.mp hy with rfl | hy
    · have hky : key (latestOf ts r (rest.filter (fun x => key x = key r))) = key r :=
        key_latestOf key ts r _ hkgrp
    
      rcases List.mem_cons.mp hx with rfl | hx
      · exact latestOf_ts_init ts x _
      · refine latestOf_ts_mem ts r _ x ?_
        rw [List.mem_filter]
        exact ⟨hx, by simp [hk, hky]⟩
    · have hky : key y ≠ key r := dedupLatest_key_ne key ts r rest y hy
      rcases List.mem_cons.mp hx with rfl | hx
      · exact absurd hk.symm hky
      · refine ih y hy x ?_ hk
        rw [List.mem_filter]
        refine ⟨hx, ?_⟩
        simp only [ne_eq, decide_not, Bool.not_eq_true', decide_eq_false_iff_not]
        intro e
        exact hky (by rw [← hk, e])

theorem dedupLatest_of_nodup_keys {α κ : Type} [DecidableEq κ] (key : α → κ)
    (ts : α → Int) (l : List α) (h : (l.map key).Nodup) :
    dedupLatest key ts l = l := by
  induction l using dedupLatest.induct key ts with
  | case1 => rw [dedupLatest]
  | case2 r rest ih =>
    rw [List.map_cons, List.nodup_cons] at h
    have hgrp : rest.filter (fun x => key x = key r) = [] := by
      rw [List.filter_eq_nil_iff]
      intro x hx
      simp only [decide_eq_true_eq]
      intro e
      exact h.1 (e ▸ List.mem_map_of_mem key hx)
    have hrest : rest.filter (fun x => key x ≠ key r) = rest := by
      rw [List.filter_eq_self]
      intro x hx
      simp only [ne_eq, decide_not, Bool.not_eq_true', decide_eq_false_iff_not]
      intro e
      exact h.1 (e ▸ List.mem_map_of_mem key hx)
    rw [dedupLatest, hgrp, hrest]
    rw [hrest] at ih
    rw [ih h.2]
    rfl

theorem latestOf_const {α : Type} (c : Int) (r : α) (l : List α) :
    latestOf (fun _ => c) r l = r := by
  induction l generalizing r with
  | nil => rfl
  | cons a l ih =>
    rw [latestOf_cons]
    simpa [lt_irrefl] using ih r

theorem dedupLatest_const_ts {α κ : Type} [DecidableEq κ] (key : α → κ)
    (c c' : Int) (l : List α) :
    dedupLatest key (fun _ => c) l = dedupLatest key (fun _ => c') l := by
  induction l using dedupLatest.induct key (fun _ => c) with
  | case1 => rw [dedupLatest, dedupLatest]
  | case2 r rest ih =>
    rw [dedupLatest, dedupLatest, latestOf_const, latestOf_const, ih]

theorem latestOf_map {α β : Type} (ts : α → Int) (f : β → α) (r : β)
    (l : List β) :
    latestOf ts (f r) (l.map f) = f (latestOf (fun b => ts (f b)) r l) := by
  induction l generalizing r with
  | nil => rfl
  | cons a l ih =>
    rw [List.map_cons, latestOf_cons, latestOf_cons]
    rcases lt_or_le (ts (f r)) (ts (f a)) with h | h
    · rw [if_pos h, if_pos h, ih]
    · rw [if_neg (not_lt.mpr h), if_neg (not_lt.mpr h), ih]

theorem dedupLatest_map {α β κ : Type} [DecidableEq κ] (key : α → κ)
    (ts : α → Int) (f : β → α) (l : List β) :
    dedupLatest key ts (l.map f) =
      (dedupLatest (fun b => key (f b)) (fun b => ts (f b)) l).map f := by
  induction l using dedupLatest.induct (fun b => key (f b)) (fun b => ts (f b)) with
  | case1 =>
    rw [List.map_nil, dedupLatest, dedupLatest, List.map_nil]
  | case2 r rest ih =>
    rw [List.map_cons, dedupLatest, dedupLatest, List.map_cons]
    rw [@List.filter_map _ _ (fun x => decide (key x = key (f r))) f rest]
    rw [@List.filter_map _ _ (fun x => decide (key x ≠ key (f r))) f rest]
    simp only [Function.comp_def]
    rw [latestOf_map, ih]

/-! ## Supporting lemmas: the orchestrator -/

theorem failedNames_append (a b : List (String × StageResult)) :
    failedNames (a ++ b) = failedNames a ++ failedNames b := by
  simp [failedNames, List.filter_append]

theorem failedNames_groupResults (fails : String → Option String)
    (elapsedOf : String → ℚ) (names : List String) :
    failedNames (groupResults fails elapsedOf names) =
      names.filter (fun n => (fails n).isSome) := by
  induction names with
  | nil => rfl
  | cons n ns ih =>
    cases h : fails n <;>
      simp [groupResults, failedNames, run_stage, h, List.filter_cons] <;>
      simpa [groupResults, failedNames] using ih

theorem map_fst_groupResults (fails : String → Option String)
    (elapsedOf : String → ℚ) (names : List String) :
    (groupResults fails elapsedOf names).map Prod.fst = names := by
  induction names with
  | nil => rfl
  | cons n ns ih => simpa [groupResults] using ih

theorem runPipelineAux_nil (fails : String → Option String)
    (elapsedOf : String → ℚ) (acc : List (String × StageResult)) :
    runPipelineAux fails elapsedOf [] acc =
      { results := acc,
        error := if failedNames acc = [] then none
                 else some (.runFailures (failedNames acc)) } := rfl

theorem runPipelineAux_results_prefix (fails : String → Option String)
    (elapsedOf : String → ℚ) (groups : List GroupSpec) :
    ∀ acc, ∃ t, (runPipelineAux fails elapsedOf groups acc).results = acc ++ t := by
  induction groups with
  | nil => exact fun acc => ⟨[], by simp [runPipelineAux_nil]⟩
  | cons g rest ih =>
    intro acc
    rw [runPipelineAux]
    cases hf : g.gateCritical.find? (fun c =>
        decide (c ∈ failedNames (acc ++ groupResults fails elapsedOf g.stages))) with
    | some c => exact ⟨groupResults fails elapsedOf g.stages, by simp [hf]⟩
    | none =>
      rcases ih (acc ++ groupResults fails elapsedOf g.stages) with ⟨t, ht⟩
      exact ⟨groupResults fails elapsedOf g.stages ++ t, by
        simp only [hf]
        rw [ht, List.append_assoc]⟩

theorem runPipelineAux_error_iff (fails : String → Option String)
    (elapsedOf : String → ℚ) (groups : List GroupSpec) :
    ∀ acc, ((runPipelineAux fails elapsedOf groups acc).error = none ↔
      failedNames (runPipelineAux fails elapsedOf groups acc).results = []) := by
  induction groups with
  | nil =>
    intro acc
    rw [runPipelineAux_nil]
    by_cases h : failedNames acc = [] <;> simp [h]
  | cons g rest ih =>
    intro acc
    rw [runPipelineAux]
    cases hf : g.gateCritical.find? (fun c =>
        decide (c ∈ failedNames (acc ++ groupResults fails elapsedOf g.stages))) with
    | some c =>
      have hc : c ∈ failedNames (acc ++ groupResults fails elapsedOf g.stages) := by
        have := List.find?_some hf
        simpa using this
      simp only [hf]
      constructor
      · intro h; exact absurd h (by simp)
      · intro h; rw [h] at hc; simp at hc
    | none =>
      simp only [hf]
      exact ih _

theorem runPipelineAux_runFailures (fails : String → Option String)
    (elapsedOf : String → ℚ) (groups : List GroupSpec) :
    ∀ acc ns, (runPipelineAux fails elapsedOf groups acc).error =
        some (.runFailures ns) →
      ns = failedNames (runPipelineAux fails elapsedOf groups acc).results := by
  induction groups with
  | nil =>
    intro acc ns h
    rw [runPipelineAux_nil] at *
    by_cases hf : failedNames acc = [] <;> simp [hf] at h ⊢
    · exact h.symm
  | cons g rest ih =>
    intro acc ns h
    rw [runPipelineAux] at *
    cases hf : g.gateCritical.find? (fun c =>
        decide (c ∈ failedNames (acc ++ groupResults fails elapsedOf g.stages))) with
    | some c => simp [hf] at h
    | none =>
      simp only [hf] at h ⊢
      exact ih _ ns h

theorem runPipelineAux_gateAbort (fails : String → Option String)
    (elapsedOf : String → ℚ) (groups : List GroupSpec) :
    ∀ acc s, (runPipelineAux fails elapsedOf groups acc).error =
        some (.gateAbort s) →
      s ∈ failedNames (runPipelineAux fails elapsedOf groups acc).results := by
  induction groups with
  | nil =>
    intro acc s h
    rw [runPipelineAux_nil] at *
    by_cases hf : failedNames acc = [] <;> simp [hf] at h
  | cons g rest ih =>
    intro acc s h
    rw [runPipelineAux] at *
    cases hf : g.gateCritical.find? (fun c =>
        decide (c ∈ failedNames (acc ++ groupResults fails elapsedOf g.stages))) with
    | some c =>
      simp only [hf] at h ⊢
      have hc : c ∈ failedNames (acc ++ groupResults fails elapsedOf g.stages) := by
        have := List.find?_some hf
        simpa using this
      have : c = s := by
        have := h
        simp at this
        exact this
      exact this ▸ hc
    | none =>
      simp only [hf] at h ⊢
      exact ih _ s h

theorem runPipelineAux_cons_pass (fails : String → Option String)
    (elapsedOf : String → ℚ) (g : GroupSpec) (rest : List GroupSpec)
    (acc : List (String × StageResult))
    (hg : ∀ c ∈ g.gateCritical,
      c ∉ failedNames (acc ++ groupResults fails elapsedOf g.stages)) :
    runPipelineAux fails elapsedOf (g :: rest) acc =
      runPipelineAux fails elapsedOf rest
        (acc ++ groupResults fails elapsedOf g.stages) := by
  rw [runPipelineAux]
  have hf : g.gateCritical.find? (fun c =>
      decide (c ∈ failedNames (acc ++ groupResults fails elapsedOf g.stages))) = none := by
    rw [List.find?_eq_none]
    intro c hc
    simpa using hg c hc
  simp [hf]

theorem runPipelineAux_cons_abort (fails : String → Option String)
    (elapsedOf : String → ℚ) (g : GroupSpec) (rest : List GroupSpec)
    (acc : List (String × StageResult)) (c : String)
    (hf : g.gateCritical.find? (fun c =>
      decide (c ∈ failedNames (acc ++ groupResults fails elapsedOf g.stages))) = some c) :
    runPipelineAux fails elapsedOf (g :: rest) acc =
      { results := acc ++ groupResults fails elapsedOf g.stages,
        error := some (.gateAbort c) } := by
  rw [runPipelineAux]
  simp [hf]

theorem runPipelineAux_cons_results_prefix (fails : String → Option String)
    (elapsedOf : String → ℚ) (g : GroupSpec) (rest : List GroupSpec)
    (acc : List (String × StageResult)) :
    ∃ t, (runPipelineAux fails elapsedOf (g :: rest) acc).results =
      (acc ++ groupResults fails elapsedOf g.stages) ++ t := by
  rw [runPipelineAux]
  cases hf : g.gateCritical.find? (fun c =>
      decide (c ∈ failedNames (acc ++ groupResults fails elapsedOf g.stages))) with
  | some c => exact ⟨[], by simp [hf]⟩
  | none =>
    rcases runPipelineAux_results_prefix fails elapsedOf rest
      (acc ++ groupResults fails elapsedOf g.stages) with ⟨t, ht⟩
    exact ⟨t, by simp only [hf]; exact ht⟩

theorem groupResults_failedNames_nil (fails : String → Option String)
    (elapsedOf : String → ℚ) (names : List String)
    (h : ∀ n ∈ names, fails n = none) :
    failedNames (groupResults fails elapsedOf names) = [] := by
  rw [failedNames_groupResults, List.filter_eq_nil_iff]
  intro n hn
  simp [h n hn]

theorem runSales_after_schema (fails : String → Option String)
    (elapsedOf : String → ℚ)
    (h1 : ∀ s ∈ schemaGroup.stages, fails s = none) :
    runSales fails elapsedOf = runPipelineAux fails elapsedOf
      [salesExtractGroup, salesRefinedGroup, salesViewsGroup, qualityGroup]
      (groupResults fails elapsedOf schemaGroup.stages) := by
  rw [runSales, runPipeline, salesGroups]
  rw [runPipelineAux_cons_pass]
  · rw [List.nil_append]
  · intro c hc
    rw [List.nil_append, groupResults_failedNames_nil fails elapsedOf _ h1]
    simp

theorem salesGate2_failedNames (fails : String → Option String)
    (elapsedOf : String → ℚ)
    (h1 : ∀ s ∈ schemaGroup.stages, fails s = none) :
    failedNames (groupResults fails elapsedOf schemaGroup.stages ++
        groupResults fails elapsedOf salesExtractGroup.stages) =
      salesExtractGroup.stages.filter (fun n => (fails n).isSome) := by
  rw [failedNames_append, groupResults_failedNames_nil fails elapsedOf _ h1,
    failedNames_groupResults, List.nil_append]

theorem salesC2_abortExtract (fails : String → Option String)
    (elapsedOf : String → ℚ)
    (h1 : ∀ s ∈ schemaGroup.stages, fails s = none)
    (h2 : (fails "ext_orders").isSome ∨ (fails "ext_lineitem").isSome) :
    ∃ c, (runSales fails elapsedOf).results.map Prod.fst =
          schemaGroup.stages ++ salesExtractGroup.stages ∧
        (runSales fails elapsedOf).error = some (.gateAbort c) ∧
        c ∈ salesExtractGroup.gateCritical ∧ (fails c).isSome := by
  rw [runSales_after_schema fails elapsedOf h1]
  have hmem : ∀ c, c ∈ salesExtractGroup.stages → (fails c).isSome →
      c ∈ failedNames (groupResults fails elapsedOf schemaGroup.stages ++
        groupResults fails elapsedOf salesExtractGroup.stages) := by
    intro c hc hs
    rw [salesGate2_failedNames fails elapsedOf h1]
    exact List.mem_filter.mpr ⟨hc, by simpa using hs⟩
  have habort : ∀ c, salesExtractGroup.gateCritical.find? (fun c =>
        decide (c ∈ failedNames (groupResults fails elapsedOf schemaGroup.stages ++
          groupResults fails elapsedOf salesExtractGroup.stages))) = some c →
      (runPipelineAux fails elapsedOf
        [salesExtractGroup, salesRefinedGroup, salesViewsGroup, qualityGroup]
        (groupResults fails elapsedOf schemaGroup.stages)).results.map Prod.fst =
          schemaGroup.stages ++ salesExtractGroup.stages ∧
      (runPipelineAux fails elapsedOf
        [salesExtractGroup, salesRefinedGroup, salesViewsGroup, qualityGroup]
        (groupResults fails elapsedOf schemaGroup.stages)).error =
          some (.gateAbort c) := by
    intro c hf
    rw [runPipelineAux_cons_abort fails elapsedOf _ _ _ c hf]
    constructor
    · simp only [List.map_append, map_fst_groupResults]
    · rfl
  cases ho : fails "ext_orders" with
  | some m =>
    have hp : decide ("ext_orders" ∈ failedNames
        (groupResults fails elapsedOf schemaGroup.stages ++
          groupResults fails elapsedOf salesExtractGroup.stages)) = true := by
      simp only [decide_eq_true_eq]
      exact hmem "ext_orders" (by simp [salesExtractGroup]) (by simp [ho])
    have hf : salesExtractGroup.gateCritical.find? (fun c =>
        decide (c ∈ failedNames (groupResults fails elapsedOf schemaGroup.stages ++
          groupResults fails elapsedOf salesExtractGroup.stages))) =
        some "ext_orders" := by
      show List.find? _ ["ext_orders", "ext_lineitem"] = _
      simp [List.find?_cons, hp]
    rcases habort "ext_orders" hf with ⟨hr, he⟩
    exact ⟨"ext_orders", hr, he, by simp [salesExtractGroup], by simp [ho]⟩
  | none =>
    have hl : (fails "ext_lineitem").isSome := by
      rcases h2 with h | h
      · rw [ho] at h; simp at h
      · exact h
    have hp : decide ("ext_orders" ∈ failedNames
        (groupResults fails elapsedOf schemaGroup.stages ++
          groupResults fails elapsedOf salesExtractGroup.stages)) = false := by
      simp only [decide_eq_false_iff_not]
      rw [salesGate2_failedNames fails elapsedOf h1]
      intro hmem'
      have := (List.mem_filter.mp hmem').2
      rw [ho] at this
      simp at this
    have hp2 : decide ("ext_lineitem" ∈ failedNames
        (groupResults fails elapsedOf schemaGroup.stages ++
          groupResults fails elapsedOf salesExtractGroup.stages)) = true := by
      simp only [decide_eq_true_eq]
      exact hmem "ext_lineitem" (by simp [salesExtractGroup]) hl
    have hf : salesExtractGroup.gateCritical.find? (fun c =>
        decide (c ∈ failedNames (groupResults fails elapsedOf schemaGroup.stages ++
          groupResults fails elapsedOf salesExtractGroup.stages))) =
        some "ext_lineitem" := by
      show List.find? _ ["ext_orders", "ext_lineitem"] = _
      simp [List.find?_cons, hp, hp2]
    rcases habort "ext_lineitem" hf with ⟨hr, he⟩
    exact ⟨"ext_lineitem", hr, he, by simp [salesExtractGroup], hl⟩

theorem salesGate2_pass (fails : String → Option String)
    (elapsedOf : String → ℚ)
    (h1 : ∀ s ∈ schemaGroup.stages, fails s = none)
    (h2o : fails "ext_orders" = none) (h2l : fails "ext_lineitem" = none) :
    runSales fails elapsedOf = runPipelineAux fails elapsedOf
      [salesRefinedGroup, salesViewsGroup, qualityGroup]
      (groupResults fails elapsedOf schemaGroup.stages ++
        groupResults fails elapsedOf salesExtractGroup.stages) := by
  rw [runSales_after_schema fails elapsedOf h1, runPipelineAux_cons_pass]
  intro c hc
  rw [salesGate2_failedNames fails elapsedOf h1]
  intro hmem
  have h := (List.mem_filter.mp hmem).2
  have hc' : c = "ext_orders" ∨ c = "ext_lineitem" := by
    simpa [salesExtractGroup] using hc
  rcases hc' with rfl | rfl
  · rw [h2o] at h; simp at h
  · rw [h2l] at h; simp at h

theorem salesC2_refinedExecuted (fails : String → Option String)
    (elapsedOf : String → ℚ)
    (h1 : ∀ s ∈ schemaGroup.stages, fails s = none)
    (h2o : fails "ext_orders" = none) (h2l : fails "ext_lineitem" = none) :
    ∀ n ∈ salesRefinedGroup.stages,
      n ∈ (runSales fails elapsedOf).results.map Prod.fst := by
  intro n hn
  rw [salesGate2_pass fails elapsedOf h1 h2o h2l]
  rcases runPipelineAux_cons_results_prefix fails elapsedOf salesRefinedGroup
    [salesViewsGroup, qualityGroup]
    (groupResults fails elapsedOf schemaGroup.stages ++
      groupResults fails elapsedOf salesExtractGroup.stages) with ⟨t, ht⟩
  rw [ht]
  simp only [List.map_append, map_fst_groupResults, List.mem_append]
  exact Or.inl (Or.inr hn)

theorem salesGate3_failedNames (fails : String → Option String)
    (elapsedOf : String → ℚ)
    (h1 : ∀ s ∈ schemaGroup.stages, fails s = none) :
    failedNames ((groupResults fails elapsedOf schemaGroup.stages ++
        groupResults fails elapsedOf salesExtractGroup.stages) ++
        groupResults fails elapsedOf salesRefinedGroup.stages) =
      salesExtractGroup.stages.filter (fun n => (fails n).isSome) ++
        salesRefinedGroup.stages.filter (fun n => (fails n).isSome) := by
  rw [failedNames_append, salesGate2_failedNames fails elapsedOf h1,
    failedNames_groupResults]

theorem salesC2_abortRefined (fails : String → Option String)
    (elapsedOf : String → ℚ)
    (h1 : ∀ s ∈ schemaGroup.stages, fails s = none)
    (h2o : fails "ext_orders" = none) (h2l : fails "ext_lineitem" = none)
    (h3 : (fails "ref_order_details").isSome ∨
      (fails "ref_customer_orders").isSome) :
    ∃ c, (runSales fails elapsedOf).results.map Prod.fst =
          (schemaGroup.stages ++ salesExtractGroup.stages) ++
            salesRefinedGroup.stages ∧
        (runSales fails elapsedOf).error = some (.gateAbort c) ∧
        c ∈ salesRefinedGroup.gateCritical ∧ (fails c).isSome := by
  rw [salesGate2_pass fails elapsedOf h1 h2o h2l]
  have hmem : ∀ c, c ∈ salesRefinedGroup.stages → (fails c).isSome →
      c ∈ failedNames ((groupResults fails elapsedOf schemaGroup.stages ++
        groupResults fails elapsedOf salesExtractGroup.stages) ++
        groupResults fails elapsedOf salesRefinedGroup.stages) := by
    intro c hc hs
    rw [salesGate3_failedNames fails elapsedOf h1]
    exact List.mem_append.mpr (Or.inr (List.mem_filter.mpr ⟨hc, by simpa using hs⟩))
  have habort : ∀ c, salesRefinedGroup.gateCritical.find? (fun c =>
        decide (c ∈ failedNames ((groupResults fails elapsedOf schemaGroup.stages ++
          groupResults fails elapsedOf salesExtractGroup.stages) ++
          groupResults fails elapsedOf salesRefinedGroup.stages))) = some c →
      (runPipelineAux fails elapsedOf
        [salesRefinedGroup, salesViewsGroup, qualityGroup]
        (groupResults fails elapsedOf schemaGroup.stages ++
          groupResults fails elapsedOf salesExtractGroup.stages)).results.map
            Prod.fst =
          (schemaGroup.stages ++ salesExtractGroup.stages) ++
            salesRefinedGroup.stages ∧
      (runPipelineAux fails elapsedOf
        [salesRefinedGroup, salesViewsGroup, qualityGroup]
        (groupResults fails elapsedOf schemaGroup.stages ++
          groupResults fails elapsedOf salesExtractGroup.stages)).error =
          some (.gateAbort c) := by
    intro c hf
    rw [runPipelineAux_cons_abort fails elapsedOf _ _ _ c hf]
    constructor
    · simp only [List.map_append, map_fst_groupResults]
    · rfl
  cases ho : fails "ref_order_details" with
  | some m =>
    have hp : decide ("ref_order_details" ∈ failedNames
        ((groupResults fails elapsedOf schemaGroup.stages ++
          groupResults fails elapsedOf salesExtractGroup.stages) ++
          groupResults fails elapsedOf salesRefinedGroup.stages)) = true := by
      simp only [decide_eq_true_eq]
      exact hmem "ref_order_details" (by simp [salesRefinedGroup]) (by simp [ho])
    have hf : salesRefinedGroup.gateCritical.find? (fun c =>
        decide (c ∈ failedNames ((groupResults fails elapsedOf schemaGroup.stages ++
          groupResults fails elapsedOf salesExtractGroup.stages) ++
          groupResults fails elapsedOf salesRefinedGroup.stages))) =
        some "ref_order_details" := by
      show List.find? _ ["ref_order_details", "ref_customer_orders"] = _
      simp only [List.find?_cons, hp]
    rcases habort "ref_order_details" hf with ⟨hr, he⟩
    exact ⟨"ref_order_details", hr, he, by simp [salesRefinedGroup], by simp [ho]⟩
  | none =>
    have hl : (fails "ref_customer_orders").isSome := by
      rcases h3 with h | h
      · rw [ho] at h; simp at h
      · exact h
    have hp : decide ("ref_order_details" ∈ failedNames
        ((groupResults fails elapsedOf schemaGroup.stages ++
          groupResults fails elapsedOf salesExtractGroup.stages) ++
          groupResults fails elapsedOf salesRefinedGroup.stages)) = false := by
      simp only [decide_eq_false_iff_not]
      rw [salesGate3_failedNames fails elapsedOf h1]
      intro hmem'
      rcases List.mem_append.mp hmem' with h | h
      · have := (List.mem_filter.mp h).1
        simp [salesExtractGroup] at this
      · have := (List.mem_filter.mp h).2
        rw [ho] at this
        simp at this
    have hp2 : decide ("ref_customer_orders" ∈ failedNames
        ((groupResults fails elapsedOf schemaGroup.stages ++
          groupResults fails elapsedOf salesExtractGroup.stages) ++
          groupResults fails elapsedOf salesRefinedGroup.stages)) = true := by
      simp only [decide_eq_true_eq]
      exact hmem "ref_customer_orders" (by simp [salesRefinedGroup]) hl
    have hf : salesRefinedGroup.gateCritical.find? (fun c =>
        decide (c ∈ failedNames ((groupResults fails elapsedOf schemaGroup.stages ++
          groupResults fails elapsedOf salesExtractGroup.stages) ++
          groupResults fails elapsedOf salesRefinedGroup.stages))) =
        some "ref_customer_orders" := by
      show List.find? _ ["ref_order_details", "ref_customer_orders"] = _
      simp only [List.find?_cons, hp, hp2]
    rcases habort "ref_customer_orders" hf with ⟨hr, he⟩
    exact ⟨"ref_customer_orders", hr, he, by simp [salesRefinedGroup], hl⟩

theorem salesC2_qualityExecuted (fails : String → Option String)
    (elapsedOf : String → ℚ)
    (h1 : ∀ s ∈ schemaGroup.stages, fails s = none)
    (h2o : fails "ext_orders" = none) (h2l : fails "ext_lineitem" = none)
    (h3a : fails "ref_order_details" = none)
    (h3b : fails "ref_customer_orders" = none) :
    "quality" ∈ (runSales fails elapsedOf).results.map Prod.fst := by
  rw [salesGate2_pass fails elapsedOf h1 h2o h2l]
  rw [runPipelineAux_cons_pass]
  · rw [runPipelineAux_cons_pass]
    · rcases runPipelineAux_cons_results_prefix fails elapsedOf qualityGroup []
        ((((groupResults fails elapsedOf schemaGroup.stages ++
          groupResults fails elapsedOf salesExtractGroup.stages) ++
          groupResults fails elapsedOf salesRefinedGroup.stages) ++
          groupResults fails elapsedOf salesViewsGroup.stages)) with ⟨t, ht⟩
      rw [ht]
      simp only [List.map_append, map_fst_groupResults, List.mem_append]
      exact Or.inl (Or.inr (by simp [qualityGroup]))
    · intro c hc
      simp [salesViewsGroup] at hc
  · intro c hc
    rw [salesGate3_failedNames fails elapsedOf h1]
    have hc' : c = "ref_order_details" ∨ c = "ref_customer_orders" := by
      simpa [salesRefinedGroup] using hc
    intro hmem'
    rcases List.mem_append.mp hmem' with h | h
    · have h1m := (List.mem_filter.mp h).1
      rcases hc' with rfl | rfl <;> simp [salesExtractGroup] at h1m
    · have h2m := (List.mem_filter.mp h).2
      rcases hc' with rfl | rfl
      · rw [h3a] at h2m; simp at h2m
      · rw [h3b] at h2m; simp at h2m

/-! ## The claims -/

/-- **C1** (amended): for both driver scripts, the run raises a (single)
terminal `RuntimeError` iff at least one recorded StageResult is FAILED, and
a run that reaches the final summary raises an error listing exactly the
failed stage names; a run aborted by a gate raises an error naming a stage
that did fail — but, contrary to the claim as stated, not necessarily every
failed stage. -/
theorem C1_overall_failure_reporting :
    ∀ (fails : String → Option String) (elapsedOf : String → ℚ),
      (((runSales fails elapsedOf).error = none ↔
          failedNames (runSales fails elapsedOf).results = []) ∧
        (∀ ns, (runSales fails elapsedOf).error = some (.runFailures ns) →
          ns = failedNames (runSales fails elapsedOf).results) ∧
        (∀ s, (runSales fails elapsedOf).error = some (.gateAbort s) →
          s ∈ failedNames (runSales fails elapsedOf).results)) ∧
      (((runSupplier fails elapsedOf).error = none ↔
          failedNames (runSupplier fails elapsedOf).results = []) ∧
        (∀ ns, (runSupplier fails elapsedOf).error = some (.runFailures ns) →
          ns = failedNames (runSupplier fails elapsedOf).results) ∧
        (∀ s, (runSupplier fails elapsedOf).error = some (.gateAbort s) →
          s ∈ failedNames (runSupplier fails elapsedOf).results)) := by
  intro fails elapsedOf
  exact ⟨⟨runPipelineAux_error_iff fails elapsedOf salesGroups [],
          runPipelineAux_runFailures fails elapsedOf salesGroups [],
          runPipelineAux_gateAbort fails elapsedOf salesGroups []⟩,
         ⟨runPipelineAux_error_iff fails elapsedOf supplierGroups [],
          runPipelineAux_runFailures fails elapsedOf supplierGroups [],
          runPipelineAux_gateAbort fails elapsedOf supplierGroups []⟩⟩

/-- **C1** witness: a run with no failing stage completes without raising,
and the aborted `c1Fails` run's named stage `ext_orders` did fail. -/
theorem C1_witness :
    (runSales (fun _ => none) (fun _ => 0)).error = none ∧
    "ext_orders" ∈ failedNames (runSales c1Fails (fun _ => 0)).results :=
  ⟨(C1_overall_failure_reporting (fun _ => none) (fun _ => 0)).1.1.mpr
      (by decide),
   (C1_overall_failure_reporting c1Fails (fun _ => 0)).1.2.2 "ext_orders"
      (by decide)⟩

/-- **C1** counterexample: with the non-critical `ext_customers` stage and
the critical `ext_orders` stage both failing, the sales run records both as
FAILED but raises the single terminal error
`Critical extract failed: ext_orders`, whose message does not list the
failed stage `ext_customers` — the claim's "lists every failed stage's
name" is false on this run. -/
theorem C1_counterexample :
    (runSales c1Fails (fun _ => 0)).error =
        some (.gateAbort "ext_orders") ∧
      "ext_customers" ∈ failedNames (runSales c1Fails (fun _ => 0)).results ∧
      "ext_customers" ∉ namedStages (PipelineError.gateAbort "ext_orders") := by
  decide

/-- **C2** (amended): in the sales driver, (i) if the schema group passed and
a critical extract stage (`ext_orders`/`ext_lineitem`) failed, exactly the
schema and extract stages executed — no stage of any later group runs — and
the run aborts with an error naming a failed critical stage (the first the
gate's loop finds, not necessarily all of them); (ii) if the critical
extract stages passed, both refined stages execute even if non-critical
extract stages failed; (iii) the refined gate behaves likewise; (iv) if the
refined gate also passed, the quality stage executes even if view stages
failed. -/
theorem C2_critical_gate_behavior :
    ∀ (fails : String → Option String) (elapsedOf : String → ℚ),
      (∀ s ∈ schemaGroup.stages, fails s = none) →
      ((((fails "ext_orders").isSome ∨ (fails "ext_lineitem").isSome) →
          ∃ c, (runSales fails elapsedOf).results.map Prod.fst =
              schemaGroup.stages ++ salesExtractGroup.stages ∧
            (runSales fails elapsedOf).error = some (.gateAbort c) ∧
            c ∈ salesExtractGroup.gateCritical ∧ (fails c).isSome) ∧
        (fails "ext_orders" = none → fails "ext_lineitem" = none →
          (∀ n ∈ salesRefinedGroup.stages,
            n ∈ (runSales fails elapsedOf).results.map Prod.fst) ∧
          (((fails "ref_order_details").isSome ∨
              (fails "ref_customer_orders").isSome) →
            ∃ c, (runSales fails elapsedOf).results.map Prod.fst =
                (schemaGroup.stages ++ salesExtractGroup.stages) ++
                  salesRefinedGroup.stages ∧
              (runSales fails elapsedOf).error = some (.gateAbort c) ∧
              c ∈ salesRefinedGroup.gateCritical ∧ (fails c).isSome) ∧
          (fails "ref_order_details" = none →
            fails "ref_customer_orders" = none →
            "quality" ∈ (runSales fails elapsedOf).results.map Prod.fst))) := by
  intro fails elapsedOf h1
  refine ⟨fun h2 => salesC2_abortExtract fails elapsedOf h1 h2,
          fun h2o h2l =>
            ⟨salesC2_refinedExecuted fails elapsedOf h1 h2o h2l,
             fun h3 => salesC2_abortRefined fails elapsedOf h1 h2o h2l h3,
             fun h3a h3b =>
               salesC2_qualityExecuted fails elapsedOf h1 h2o h2l h3a h3b⟩⟩

/-- **C2** witness: with only `ext_orders` failing, the sales run executes
exactly the schema and extract stages and aborts naming a failed critical
stage. -/
theorem C2_witness :
    ∃ c, (runSales c2WitFails (fun _ => 0)).results.map Prod.fst =
        schemaGroup.stages ++ salesExtractGroup.stages ∧
      (runSales c2WitFails (fun _ => 0)).error = some (.gateAbort c) ∧
      c ∈ salesExtractGroup.gateCritical ∧ (c2WitFails c).isSome :=
  (C2_critical_gate_behavior c2WitFails (fun _ => 0) (by decide)).1
    (Or.inl (by decide))

/-- **C2** counterexample: when both critical extract stages fail, the run
aborts with `Critical extract failed: ext_orders`, an error that does not
enumerate the failing critical stage `ext_lineitem` — the abort error names
only the first critical failure the gate's loop finds. -/
theorem C2_counterexample :
    (runSales c2Fails (fun _ => 0)).error =
        some (.gateAbort "ext_orders") ∧
      "ext_lineitem" ∈ failedNames (runSales c2Fails (fun _ => 0)).results ∧
      "ext_lineitem" ∉ namedStages (PipelineError.gateAbort "ext_orders") := by
  decide

/-- **C8** (amended): a stage whose work raises is recorded as FAILED with
its elapsed time, the log line truncates the exception text to its first 200
characters, but — contrary to the claim as stated — the recorded
StageResult stores the complete, unbounded exception text. -/
theorem C8_failed_stage_result :
    ∀ (elapsed : ℚ) (e : String),
      run_stage elapsed (Except.error e) =
        { status := .FAILED, elapsed := elapsed, error := some e } ∧
      printedErrorText e = String.mk (e.data.take 200) ∧
      (printedErrorText e).data.length ≤ 200 := by
  intro elapsed e
  refine ⟨rfl, rfl, ?_⟩
  show (e.data.take 200).length ≤ 200
  rw [List.length_take]
  exact min_le_left _ _

set_option maxRecDepth 4000 in
/-- **C8** counterexample: a 201-character exception text is stored in the
StageResult in full — its recorded error exceeds the code's own
200-character log truncation bound, so the recorded message is not
truncated/bounded to a fixed maximum length. -/
theorem C8_counterexample :
    (run_stage 0 (Except.error longErrMsg)).error = some longErrMsg ∧
      200 < longErrMsg.length ∧
      printedErrorText longErrMsg ≠ longErrMsg := by
  decide

/-- **C3** (amended): for the orders and lineitem dedup stages, every key
with more than one cleaned row has exactly one surviving row; the survivor
is one of that key's input rows and carries the maximum `_ingested_at` of
its key group.  (Among rows sharing the maximum timestamp the survivor is
whichever the engine enumerates first — an order-dependent choice, not a
deterministic secondary tiebreak; see the counterexample.) -/
theorem C3_dedup_latest_wins :
    (∀ (rows : List OrderRow) (k : Option Int),
      1 < (rows.filter (fun r => r.o_orderkey = k)).length →
      ((tv_orders_deduped rows).filter
          (fun r => r.o_orderkey = k)).length = 1 ∧
      (∀ y ∈ tv_orders_deduped rows, y.o_orderkey = k →
        y ∈ rows ∧ ∀ x ∈ rows, x.o_orderkey = k →
          x.ingested_at ≤ y.ingested_at)) ∧
    (∀ (rows : List LineitemRow) (k : Option Int × Option Int),
      1 < (rows.filter
        (fun r => (r.l_orderkey, r.l_linenumber) = k)).length →
      ((tv_lineitem_deduped rows).filter
          (fun r => (r.l_orderkey, r.l_linenumber) = k)).length = 1 ∧
      (∀ y ∈ tv_lineitem_deduped rows,
        (y.l_orderkey, y.l_linenumber) = k →
        y ∈ rows ∧ ∀ x ∈ rows, (x.l_orderkey, x.l_linenumber) = k →
          x.ingested_at ≤ y.ingested_at)) := by
  constructor
  · intro rows k h
    have hx : ∃ x ∈ rows, x.o_orderkey = k := by
      rcases List.exists_mem_of_length_pos (by omega :
        0 < (rows.filter (fun r => r.o_orderkey = k)).length) with ⟨x, hx⟩
      exact ⟨x, List.mem_of_mem_filter hx,
        by simpa using (List.mem_filter.mp hx).2⟩
    refine ⟨dedupLatest_count (fun r : OrderRow => r.o_orderkey)
      (fun r => r.ingested_at) rows k hx, ?_⟩
    intro y hy hyk
    refine ⟨dedupLatest_subset (fun r : OrderRow => r.o_orderkey)
      (fun r => r.ingested_at) rows y hy, ?_⟩
    intro x hx' hxk
    exact dedupLatest_maxTs (fun r : OrderRow => r.o_orderkey)
      (fun r => r.ingested_at) rows y hy x hx' (hxk.trans hyk.symm)
  · intro rows k h
    have hx : ∃ x ∈ rows, (x.l_orderkey, x.l_linenumber) = k := by
      rcases List.exists_mem_of_length_pos (by omega :
        0 < (rows.filter
          (fun r => (r.l_orderkey, r.l_linenumber) = k)).length) with ⟨x, hx⟩
      exact ⟨x, List.mem_of_mem_filter hx,
        by simpa using (List.mem_filter.mp hx).2⟩
    refine ⟨dedupLatest_count
      (fun r : LineitemRow => (r.l_orderkey, r.l_linenumber))
      (fun r => r.ingested_at) rows k hx, ?_⟩
    intro y hy hyk
    refine ⟨dedupLatest_subset
      (fun r : LineitemRow => (r.l_orderkey, r.l_linenumber))
      (fun r => r.ingested_at) rows y hy, ?_⟩
    intro x hx' hxk
    exact dedupLatest_maxTs
      (fun r : LineitemRow => (r.l_orderkey, r.l_linenumber))
      (fun r => r.ingested_at) rows y hy x hx' (hxk.trans hyk.symm)

/-- **C3** witness: the two cleaned rows with key 2 and timestamps 10 < 20
leave exactly one surviving row. -/
theorem C3_witness :
    ((tv_orders_deduped [c4OrderT1, c4OrderT2]).filter
      (fun r => r.o_orderkey = some 2)).length = 1 :=
  (C3_dedup_latest_wins.1 [c4OrderT1, c4OrderT2] (some 2) (by decide)).1

/-- **C3** counterexample: `tieRowA` and `tieRowB` share key 2 and the same
`_ingested_at`; fed in one enumeration order the dedup keeps `tieRowA`,
in the other it keeps `tieRowB`, although both inputs are the same rowset
(one a permutation of the other).  The survivor therefore depends on the
enumeration order, so no deterministic secondary tiebreak on the data
decides ties. -/
theorem C3_counterexample :
    tv_orders_deduped [tieRowA, tieRowB] = [tieRowA] ∧
    tv_orders_deduped [tieRowB, tieRowA] = [tieRowB] ∧
    tieRowA ≠ tieRowB ∧
    [tieRowA, tieRowB].Perm [tieRowB, tieRowA] := by
  refine ⟨?_, ?_, by decide, by decide⟩
  · simp [tv_orders_deduped, dedupLatest, latestOf, tieRowA, tieRowB]
  · simp [tv_orders_deduped, dedupLatest, latestOf, tieRowA, tieRowB]

/-- **C4** (confirmed): (i) for the lineitem extract, N valid rows with
pairwise distinct natural keys plus one null-key row plus one row failing a
positivity predicate yield a final rowset of exactly N rows; (ii) the end-ic
scenario: source orders `[(id=1, date=NULL), (id=2, d1, t1), (id=2, d1,
t2>t1)]` yield exactly the single row with key 2 and `_ingested_at = t2`. -/
theorem C4_clean_stage_filtering :
    (∀ (valid : List LineitemRow) (bad1 bad2 : LineitemRow),
      (∀ r ∈ valid,
        (r.l_orderkey.isSome && r.l_linenumber.isSome &&
          qGT r.l_quantity (some 0) &&
          qGT r.l_extendedprice (some 0)) = true) →
      (valid.map (fun r => (r.l_orderkey, r.l_linenumber))).Nodup →
      bad1.l_orderkey = none →
      (qGT bad2.l_quantity (some 0) = false ∨
        qGT bad2.l_extendedprice (some 0) = false) →
      (tv_lineitem_deduped (tv_lineitem_cleaned
        (valid ++ [bad1, bad2]))).length = valid.length) ∧
    (tv_orders_deduped (tv_orders_cleaned c4Orders) = [c4OrderT2] ∧
      c4OrderT2.o_orderkey = some 2 ∧ c4OrderT2.ingested_at = 20) := by
  constructor
  · intro valid bad1 bad2 hv hnd h1 h2
    have hclean : tv_lineitem_cleaned (valid ++ [bad1, bad2]) = valid := by
      rw [tv_lineitem_cleaned, List.filter_append]
      have hvv := List.filter_eq_self.mpr hv
      have hbb : [bad1, bad2].filter (fun r =>
          r.l_orderkey.isSome && r.l_linenumber.isSome &&
          qGT r.l_quantity (some 0) && qGT r.l_extendedprice (some 0)) = [] := by
        simp only [List.filter_cons, List.filter_nil, h1]
        rcases h2 with h | h <;> simp [h]
      rw [hvv, hbb, List.append_nil]
    rw [hclean, tv_lineitem_deduped, dedupLatest_of_nodup_keys _ _ _ hnd]
  · refine ⟨?_, by decide, by decide⟩
    simp [tv_orders_deduped, tv_orders_cleaned, dedupLatest, latestOf,
      c4Orders, c4NullDateOrder, c4OrderT1, c4OrderT2]

/-- **C4** witness: one valid lineitem row plus a null-key row plus a
negative-quantity row yield exactly one final row. -/
theorem C4_witness :
    (tv_lineitem_deduped (tv_lineitem_cleaned
      ([liGood] ++ [liNullKey, liNegQty]))).length = 1 := by
  have h := C4_clean_stage_filtering.1 [liGood] liNullKey liNegQty
    (by decide) (by decide) (by decide) (Or.inl (by decide))
  simpa using h

/-- The orders extract in closed form: every row of one run carries the same
`_ingested_at`, so the dedup ties are all broken by enumeration order and
the surviving business rows do not depend on the run's timestamp or batch
id. -/
theorem extract_orders_canonical (src : List SrcOrder) (now : Int)
    (batch : String) :
    extract_orders src now batch =
      (dedupLatest (fun s : SrcOrder => s.o_orderkey) (fun _ => 0)
        (src.filter (fun s => s.o_orderkey.isSome && s.o_orderdate.isSome))).map
        (fun s => { toSrcOrder := s, ingested_at := now,
                    source_system := "tpch", batch_id := batch }) := by
  rw [extract_orders, tv_orders_raw, tv_orders_cleaned, tv_orders_deduped]
  rw [@List.filter_map _ _
    (fun r : OrderRow => r.o_orderkey.isSome && r.o_orderdate.isSome) _ src]
  rw [dedupLatest_map]
  dsimp only [Function.comp]
  rw [dedupLatest_const_ts _ now 0]
  rfl

/-- The customers extract in closed form. -/
theorem extract_customers_canonical (src : List SrcCustomer) (now : Int)
    (batch : String) :
    extract_customers src now batch =
      (dedupLatest (fun s : SrcCustomer => s.c_custkey) (fun _ => 0)
        (src.filter (fun s => s.c_custkey.isSome && s.c_name.isSome))).map
        (fun s => { toSrcCustomer := s, ingested_at := now,
                    source_system := "tpch", batch_id := batch }) := by
  rw [extract_customers, tv_customers_raw, tv_customers_cleaned,
    tv_customers_deduped]
  rw [@List.filter_map _ _
    (fun r : CustomerRow => r.c_custkey.isSome && r.c_name.isSome) _ src]
  rw [dedupLatest_map]
  dsimp only [Function.comp]
  rw [dedupLatest_const_ts _ now 0]
  rfl

/-- **C5** (confirmed): running the orders or customers extract twice over an
unchanged source yields, lineage columns aside, identical rowsets — in
particular identical natural-key lists and identical row counts — whatever
the two runs' timestamps and batch ids are. -/
theorem C5_extract_idempotence :
    ∀ (srcO : List SrcOrder) (srcC : List SrcCustomer) (t1 t2 : Int)
      (b1 b2 : String),
      (extract_orders srcO t1 b1).map (fun r => r.toSrcOrder) =
        (extract_orders srcO t2 b2).map (fun r => r.toSrcOrder) ∧
      (extract_orders srcO t1 b1).map (fun r => r.o_orderkey) =
        (extract_orders srcO t2 b2).map (fun r => r.o_orderkey) ∧
      (extract_orders srcO t1 b1).length =
        (extract_orders srcO t2 b2).length ∧
      (extract_customers srcC t1 b1).map (fun r => r.toSrcCustomer) =
        (extract_customers srcC t2 b2).map (fun r => r.toSrcCustomer) ∧
      (extract_customers srcC t1 b1).map (fun r => r.c_custkey) =
        (extract_customers srcC t2 b2).map (fun r => r.c_custkey) ∧
      (extract_customers srcC t1 b1).length =
        (extract_customers srcC t2 b2).length := by
  intro srcO srcC t1 t2 b1 b2
  refine ⟨?_, ?_, ?_, ?_, ?_, ?_⟩ <;>
    simp [extract_orders_canonical, extract_customers_canonical,
      List.map_map, Function.comp]

/-- **C6** (confirmed): the three division-based derived fields are computed
through `NULLIF`-guarded division — a NULL or zero denominator (`quantity`,
`retail_price`, or the window-average supply cost) gives a NULL result, and
the division function itself is total, so no runtime arithmetic failure can
occur. -/
theorem C6_null_safe_division :
    ∀ (ep q rp sc cost : Option ℚ) (costs : List (Option ℚ)),
      ((q = some 0 ∨ q = none) → unit_price ep q = none) ∧
      ((rp = some 0 ∨ rp = none) → margin_pct rp sc = none) ∧
      ((sqlAvg costs = some 0 ∨ sqlAvg costs = none) →
        cost_vs_region_avg cost costs = none) := by
  intro ep q rp sc cost costs
  refine ⟨?_, ?_, ?_⟩
  · rintro (rfl | rfl) <;> cases ep <;>
      simp [unit_price, nullif0, qDiv, sqlRound]
  · rintro (rfl | rfl) <;> cases sc <;>
      simp [margin_pct, nullif0, qDiv, qSub, sqlRound]
  · intro h
    have hden : nullif0 (sqlAvg costs) = none := by
      rcases h with h | h <;> simp [nullif0, h]
    cases cost <;> simp [cost_vs_region_avg, hden, qDiv, sqlRound]

/-- **C6** witness: a zero quantity, a zero retail price and an empty window
partition each give a NULL derived field. -/
theorem C6_witness :
    unit_price (some 5) (some 0) = none ∧
    margin_pct (some 0) (some 3) = none ∧
    cost_vs_region_avg (some 2) [] = none :=
  ⟨(C6_null_safe_division (some 5) (some 0) (some 0) (some 3) (some 2)
      []).1 (Or.inl rfl),
   (C6_null_safe_division (some 5) (some 0) (some 0) (some 3) (some 2)
      []).2.1 (Or.inl rfl),
   (C6_null_safe_division (some 5) (some 0) (some 0) (some 3) (some 2)
      []).2.2 (Or.inr rfl)⟩

/-- **C7** (amended): the freshness check reports PASS iff the elapsed time
rounds (one decimal, half-up) to at most 25.0 hours — equivalently, iff the
elapsed seconds are below 90180 (25 hours and 3 minutes), not 90000 (25
hours) as claimed; a dataset 26 hours old is STALE, one 10 hours old
PASSes. -/
theorem C7_freshness_threshold : ∀ now ts : Int,
    (freshnessStatus now ts = .PASS ↔ now - ts < 90180) ∧
    (now - ts = 93600 → freshnessStatus now ts = .STALE) ∧
    (now - ts = 36000 → freshnessStatus now ts = .PASS) := by
  intro now ts
  have hiff : freshnessStatus now ts = .PASS ↔ now - ts < 90180 := by
    rw [freshnessStatus, hoursSince, roundAt, rndHalfUp]
    rcases le_or_lt 0 (now - ts) with hs | hs
    · have hsq : (0:ℚ) ≤ ((now - ts : ℤ) : ℚ) := by exact_mod_cast hs
      have hq : (0:ℚ) ≤ ((now - ts : ℤ) : ℚ) / 3600 * 10 ^ 1 := by positivity
      rw [if_pos hq]
      have key : ((⌊((now - ts : ℤ) : ℚ) / 3600 * 10 ^ 1 + 1/2⌋ : ℚ) /
          10 ^ 1 ≤ 25) ↔ (now - ts) < 90180 := by
        rw [div_le_iff₀ (by norm_num : (0:ℚ) < 10 ^ 1)]
        rw [show (25:ℚ) * 10 ^ 1 = ((250:ℤ):ℚ) by norm_num]
        rw [Int.cast_le, Int.floor_le_iff]
        constructor
        · intro h
          push_cast at h
          norm_num at h
          have h' : (now:ℚ) - ts < 90180 := by nlinarith
          have h'' : ((now - ts : ℤ) : ℚ) < 90180 := by push_cast; linarith
          exact_mod_cast h''
        · intro h
          have h' : ((now - ts : ℤ) : ℚ) < 90180 := by exact_mod_cast h
          push_cast at h' ⊢
          norm_num
          nlinarith
      by_cases hc : ((⌊((now - ts : ℤ) : ℚ) / 3600 * 10 ^ 1 + 1/2⌋ : ℚ) /
          10 ^ 1 ≤ 25)
      · rw [if_pos hc]
        exact iff_of_true rfl (key.mp hc)
      · rw [if_neg hc]
        exact iff_of_false (by simp) (fun h => hc (key.mpr h))
    · have hsq : ((now - ts : ℤ) : ℚ) < 0 := by exact_mod_cast hs
      have hq : ¬ (0:ℚ) ≤ ((now - ts : ℤ) : ℚ) / 3600 * 10 ^ 1 := by
        push_neg
        nlinarith
      rw [if_neg hq]
      have hnn : (0:ℤ) ≤ ⌊-(((now - ts : ℤ) : ℚ) / 3600 * 10 ^ 1) + 1/2⌋ := by
        rw [Int.floor_nonneg]
        nlinarith
      have hval : (((-⌊-(((now - ts : ℤ) : ℚ) / 3600 * 10 ^ 1) + 1/2⌋ : ℤ) : ℚ) /
          10 ^ 1 ≤ 25) := by
        have hle : ((-⌊-(((now - ts : ℤ) : ℚ) / 3600 * 10 ^ 1) + 1/2⌋ : ℤ) : ℚ) ≤ 0 := by
          exact_mod_cast neg_nonpos.mpr hnn
        nlinarith
      rw [if_pos hval]
      exact iff_of_true rfl (by omega)
  have hPS : freshnessStatus now ts = .PASS ∨ freshnessStatus now ts = .STALE := by
    rw [freshnessStatus]
    split <;> simp
  refine ⟨hiff, ?_, ?_⟩
  · intro h
    rcases hPS with hp | hp
    · exact absurd (hiff.mp hp) (by omega)
    · exact hp
  · intro h
    exact hiff.mpr (by omega)

/-- **C7** counterexample: a dataset whose latest lineage timestamp is
90100 seconds old — more than the claimed 25-hour (90000 s) bound — still
reports PASS, because `round(90100/3600, 1) = 25.0 <= 25`. -/
theorem C7_counterexample :
    freshnessStatus 90100 0 = .PASS ∧ (25 * 3600 : ℤ) < 90100 - 0 := by
  constructor
  · rw [freshnessStatus, hoursSince, roundAt, rndHalfUp]
    norm_num
  · norm_num

/-- **C7** witness: the 26-hour and 10-hour instances of
`C7_freshness_threshold`. -/
theorem C7_witness :
    freshnessStatus 93600 0 = .STALE ∧ freshnessStatus 36000 0 = .PASS :=
  ⟨(C7_freshness_threshold 93600 0).2.1 rfl,
   (C7_freshness_threshold 36000 0).2.2 rfl⟩

/-- `x >= 0` being TRUE in SQL three-valued logic makes `x < 0` FALSE. -/
theorem qGE_zero_not_qLT (x : Option ℚ) (h : qGE x (some 0) = true) :
    qLT x (some 0) = false := by
  cases x with
  | none => simp [qGE] at h
  | some a =>
    simp only [qGE, decide_eq_true_eq] at h
    simp only [qLT, decide_eq_false_iff_not]
    exact not_lt.mpr h

/-- `x > 0` being TRUE in SQL three-valued logic makes `x <= 0` FALSE. -/
theorem qGT_zero_not_qLE (x : Option ℚ) (h : qGT x (some 0) = true) :
    qLE x (some 0) = false := by
  cases x with
  | none => simp [qGT] at h
  | some a =>
    simp only [qGT, decide_eq_true_eq] at h
    simp only [qLE, decide_eq_false_iff_not]
    exact not_le.mpr h

/-- **C9** (confirmed): every row written to silver `order_details` passed
the final quality gate `quantity > 0 AND extended_price > 0 AND
net_revenue >= 0`, so on pipeline-produced data the business-rule checks
`No negative net_revenue` and `No zero/neg quantity` measure a violation
count of zero and report PASS. -/
theorem C9_final_filter_checks :
    ∀ (orders : List OrderRow) (lineitem : List LineitemRow)
      (parts : List PartRow),
      (∀ r ∈ refined_order_details orders lineitem parts,
        qGT r.quantity (some 0) = true ∧
        qGT r.extended_price (some 0) = true ∧
        qGE r.net_revenue_col (some 0) = true) ∧
      negNetRevenueViolations
        (refined_order_details orders lineitem parts) = 0 ∧
      ruleStatus (negNetRevenueViolations
        (refined_order_details orders lineitem parts)) = .PASS ∧
      zeroNegQuantityViolations
        (refined_order_details orders lineitem parts) = 0 ∧
      ruleStatus (zeroNegQuantityViolations
        (refined_order_details orders lineitem parts)) = .PASS := by
  intro orders lineitem parts
  have hmem : ∀ r ∈ refined_order_details orders lineitem parts,
      qGT r.quantity (some 0) = true ∧
      qGT r.extended_price (some 0) = true ∧
      qGE r.net_revenue_col (some 0) = true := by
    intro r hr
    rw [refined_order_details, tv_order_details_final] at hr
    have := (List.mem_filter.mp hr).2
    simp only [Bool.and_eq_true] at this
    exact ⟨this.1.1, this.1.2, this.2⟩
  have hneg : negNetRevenueViolations
      (refined_order_details orders lineitem parts) = 0 := by
    rw [negNetRevenueViolations, List.length_eq_zero, List.filter_eq_nil_iff]
    intro r hr
    rw [qGE_zero_not_qLT r.net_revenue_col (hmem r hr).2.2]
    simp
  have hqty : zeroNegQuantityViolations
      (refined_order_details orders lineitem parts) = 0 := by
    rw [zeroNegQuantityViolations, List.length_eq_zero,
      List.filter_eq_nil_iff]
    intro r hr
    rw [qGT_zero_not_qLE r.quantity (hmem r hr).1]
    simp
  exact ⟨hmem, hneg, by rw [hneg]; rfl, hqty, by rw [hqty]; rfl⟩

/-- **C9** witness: a concrete bronze triple produces a silver rowset whose
two business-rule checks PASS and whose (single) row has positive
quantity. -/
theorem C9_witness :
    ruleStatus (negNetRevenueViolations
      (refined_order_details [w9order] [w9line] [w9part])) = .PASS ∧
    ruleStatus (zeroNegQuantityViolations
      (refined_order_details [w9order] [w9line] [w9part])) = .PASS ∧
    qGT w9row.quantity (some 0) = true :=
  ⟨(C9_final_filter_checks [w9order] [w9line] [w9part]).2.2.1,
   (C9_final_filter_checks [w9order] [w9line] [w9part]).2.2.2.2,
   ((C9_final_filter_checks [w9order] [w9line] [w9part]).1 w9row
      (by
        simp [w9row, refined_order_details, tv_order_details_final,
          tv_order_details_joined, leftJoinParts, mkJoinedOrderDetail,
          calcOrderDetail, sqlEqInt, qGT, qGE, unit_price, net_revenue,
          sqlRound, qDiv, qMul, qSub, nullif0, roundAt, rndHalfUp,
          w9order, w9line, w9part, liGood]
        norm_num)).1⟩

/-- **C10** (confirmed): the silver `customer_orders` rowset contains only
customers with at least one counted order — every emitted row has
`total_orders > 0` — and a customer whose key matches no order is absent
from the output although the customer-to-orders join is a LEFT JOIN. -/
theorem C10_customer_orders_membership :
    ∀ (custGeo : List CustomerGeoRow) (orders : List OrderRow),
      (∀ r ∈ tv_customer_rfm custGeo orders, 0 < r.total_orders) ∧
      (∀ cg ∈ custGeo, totalOrdersOf cg.customer_key orders = 0 →
        ∀ r ∈ tv_customer_rfm custGeo orders,
          r.customer_key ≠ cg.customer_key) := by
  intro custGeo orders
  have h1 : ∀ r ∈ tv_customer_rfm custGeo orders, 0 < r.total_orders := by
    intro r hr
    rw [tv_customer_rfm] at hr
    have := (List.mem_filter.mp hr).2
    simpa using this
  refine ⟨h1, ?_⟩
  intro cg hcg h0 r hr hk
  have hr0 := hr
  rw [tv_customer_rfm] at hr0
  have hr' := (List.mem_filter.mp hr0).1
  rw [tv_customer_order_agg] at hr'
  rcases List.mem_map.mp hr' with ⟨cg', hcg', rfl⟩
  have hck : (aggRowFor orders cg').customer_key = cg'.customer_key := rfl
  have htot : (aggRowFor orders cg').total_orders =
      totalOrdersOf cg'.customer_key orders := rfl
  have h1r := h1 _ hr
  rw [htot] at h1r
  rw [hck] at hk
  rw [hk] at h1r
  rw [h0] at h1r
  exact absurd h1r (by simp)

/-- **C10** witness: with customer 1 (one order) and customer 2 (no orders),
the emitted aggregate row of customer 1 has positive `total_orders` and no
emitted row carries customer 2's key. -/
theorem C10_witness :
    0 < c10RowA.total_orders ∧
    c10RowA.customer_key ≠ c10CustB.customer_key := by
  have hmem : c10RowA ∈ tv_customer_rfm [c10CustA, c10CustB] [c10Order] := by
    simp [c10RowA, tv_customer_rfm, tv_customer_order_agg, dedupLatest,
      latestOf, aggRowFor, totalOrdersOf, sqlEqInt, c10CustA, c10CustB,
      c10Order, w9order]
  exact ⟨(C10_customer_orders_membership [c10CustA, c10CustB]
            [c10Order]).1 c10RowA hmem,
         (C10_customer_orders_membership [c10CustA, c10CustB]
            [c10Order]).2 c10CustB (by simp) (by decide) c10RowA hmem⟩
